import Mathlib

/-!
Verification of the chat-completion client in `src/openai.rs`.

The data model (`ChatRole`, `ChatEntry`, `ChatLog`, `ChatCompletionRequest`,
`FinishReason`, `ChatCompletionChoice`, `CompletionUsage`,
`ChatCompletionResponse`) is translated field by field from the Rust
structs.  The serde derives are modelled by explicit encoders to and
decoders from a JSON value tree, together with a renderer and a parser
modelling `serde_json`'s compact text format.  `usize` fields are modelled
as `Nat`.  JSON numbers carry an `isFloat` flag recording whether
`serde_json` holds the value as `f64` — a literal with a fraction or an
exponent, or an integer literal outside the `u64`/`i64` range — which the
derived deserializers for integer fields reject; the stored integer value
of a float is its truncated integer part (the decoders never inspect it).
The derived struct deserializers accept both the JSON-object form and the
positional-sequence form (`visit_seq`), and the unit-variant enums accept
their token as a bare string or as a single-entry map with null content,
as `serde_json` does.
-/

namespace Openai

/-- A JSON value, as exchanged with the external `serde_json` library. -/
inductive Json : Type where
  | null : Json
  | bool (b : Bool) : Json
  | num (v : Int) (isFloat : Bool) : Json
  | str (s : String) : Json
  | arr (elems : List Json) : Json
  | obj (fields : List (String × Json)) : Json

/-- Roles that can be used in a chat log (`enum ChatRole`). -/
inductive ChatRole : Type where
  | System : ChatRole
  | User : ChatRole
  | Assistant : ChatRole
deriving DecidableEq

/-- A single entry in a chat log (`struct ChatEntry`). -/
structure ChatEntry : Type where
  role : ChatRole
  content : String
deriving DecidableEq

/-- A chat log, a newtype over a list of chat entries (`struct ChatLog(Vec<ChatEntry>)`). -/
structure ChatLog : Type where
  entries : List ChatEntry
deriving DecidableEq

/-- A chat completion request (`struct ChatCompletionRequest`). -/
structure ChatCompletionRequest : Type where
  model : String
  messages : ChatLog
deriving DecidableEq

/-- `ChatCompletionRequest::new`. -/
def ChatCompletionRequest.new (model : String) (messages : ChatLog) :
    ChatCompletionRequest :=
  ⟨model, messages⟩

/-- `impl From<ChatLog> for ChatCompletionRequest`. -/
def ChatCompletionRequest.fromChatLog (log : ChatLog) : ChatCompletionRequest :=
  ChatCompletionRequest.new "gpt-3.5-turbo" log

/-- A reason for which the completion stopped (`enum FinishReason`). -/
inductive FinishReason : Type where
  | Stop : FinishReason
  | Length : FinishReason
deriving DecidableEq

/-- Chat completion choice (`struct ChatCompletionChoice`). -/
structure ChatCompletionChoice : Type where
  index : Nat
  message : ChatEntry
  finish_reason : FinishReason
deriving DecidableEq

/-- A completion usage information (`struct CompletionUsage`). -/
structure CompletionUsage : Type where
  prompt_tokens : Nat
  completion_tokens : Nat
  total_tokens : Nat
deriving DecidableEq

/-- A chat completion response (`struct ChatCompletionResponse`). -/
structure ChatCompletionResponse : Type where
  id : String
  object : String
  created : Nat
  choices : List ChatCompletionChoice
  usage : CompletionUsage
deriving DecidableEq

/-! ## Serialization to JSON values (the derived `Serialize` impls) -/

/-- `ChatRole`'s `Serialize`: each variant is its renamed lowercase token. -/
def ChatRole.toJson : ChatRole → Json
  | .System => .str "system"
  | .User => .str "user"
  | .Assistant => .str "assistant"

/-- `ChatEntry`'s `Serialize`: a map with the fields in declaration order. -/
def ChatEntry.toJson (e : ChatEntry) : Json :=
  .obj [("role", e.role.toJson), ("content", .str e.content)]

/-- `ChatLog`'s `Serialize`: a newtype struct serializes as its inner sequence. -/
def ChatLog.toJson (l : ChatLog) : Json :=
  .arr (l.entries.map ChatEntry.toJson)

/-- `ChatCompletionRequest`'s `Serialize`: fields in declaration order. -/
def ChatCompletionRequest.toJson (r : ChatCompletionRequest) : Json :=
  .obj [("model", .str r.model), ("messages", r.messages.toJson)]

/-! ## Decode errors (modelling `serde_json::Error` categories) -/

/-- The ways the derived `Deserialize` impls (via `serde_json`) fail. -/
inductive DecodeError : Type where
  /-- the payload is not valid JSON text, or has trailing characters -/
  | parseFailed : DecodeError
  /-- a value's type disagrees with the declared field type -/
  | invalidType (expected : String) : DecodeError
  /-- an enum token outside the closed set of variants -/
  | unknownVariant (got : String) : DecodeError
  /-- a required struct field is absent -/
  | missingField (name : String) : DecodeError
  /-- a struct field occurs more than once -/
  | duplicateField (name : String) : DecodeError
  /-- a positional sequence with the wrong number of elements -/
  | invalidLength (expected : Nat) : DecodeError
deriving DecidableEq

/-- Whether an `Except` is a success. -/
def isOkE {ε α : Type} : Except ε α → Bool
  | .ok _ => true
  | .error _ => false

/-! ## Deserialization from JSON values (the derived `Deserialize` impls) -/

/-- Decoding a `String` field: accepts exactly JSON strings. -/
def decodeString : Json → Except DecodeError String
  | .str s => .ok s
  | _ => .error (.invalidType "a string")

/-- Decoding a `usize` field: accepts exactly non-negative integral JSON
numbers (`serde_json` holds a number with a fraction or exponent as `f64`,
which the `u64` visitor rejects, as it rejects negative integers). -/
def decodeUsize : Json → Except DecodeError Nat
  | .num v isFloat =>
    if isFloat then .error (.invalidType "an integer")
    else if v < 0 then .error (.invalidType "a non-negative integer")
    else .ok v.toNat
  | _ => .error (.invalidType "an integer")

/-- Dispatch of a `ChatRole` variant identifier token. -/
def roleFromToken (s : String) : Except DecodeError ChatRole :=
  if s = "system" then .ok .System
  else if s = "user" then .ok .User
  else if s = "assistant" then .ok .Assistant
  else .error (.unknownVariant s)

/-- `ChatRole`'s `Deserialize`: a unit-only enum decodes from its bare
token string, or — as `serde_json`'s enum deserializer also accepts — from
the single-entry map form whose key is the token and whose content is
null (the unit variant deserializes `()` from the content, which only
`null` satisfies; the identifier is checked before the content). -/
def decodeRole : Json → Except DecodeError ChatRole
  | .str s => roleFromToken s
  | .obj [(s, v)] => do
    let r ← roleFromToken s
    match v with
    | .null => .ok r
    | _ => .error (.invalidType "unit")
  | .obj _ => .error (.invalidType "a map with a single variant key")
  | _ => .error (.invalidType "a variant identifier")

/-- Dispatch of a `FinishReason` variant identifier token. -/
def finishFromToken (s : String) : Except DecodeError FinishReason :=
  if s = "stop" then .ok .Stop
  else if s = "length" then .ok .Length
  else .error (.unknownVariant s)

/-- `FinishReason`'s `Deserialize`: bare token string or the single-entry
map form with null content, as for `decodeRole`. -/
def decodeFinish : Json → Except DecodeError FinishReason
  | .str s => finishFromToken s
  | .obj [(s, v)] => do
    let f ← finishFromToken s
    match v with
    | .null => .ok f
    | _ => .error (.invalidType "unit")
  | .obj _ => .error (.invalidType "a map with a single variant key")
  | _ => .error (.invalidType "a variant identifier")

/-- Field loop of `ChatEntry`'s derived `Deserialize`: walks the map entries,
fills each known field at most once (a repeat is a duplicate-field error),
skips unknown fields, and requires every field present at the end. -/
def entryFields : List (String × Json) → Option ChatRole → Option String →
    Except DecodeError ChatEntry
  | [], some r, some c => .ok ⟨r, c⟩
  | [], none, _ => .error (.missingField "role")
  | [], some _, none => .error (.missingField "content")
  | (k, v) :: rest, r?, c? =>
    if k = "role" then
      match r? with
      | some _ => .error (.duplicateField "role")
      | none => do entryFields rest (some (← decodeRole v)) c?
    else if k = "content" then
      match c? with
      | some _ => .error (.duplicateField "content")
      | none => do entryFields rest r? (some (← decodeString v))
    else entryFields rest r? c?

/-- `ChatEntry`'s `Deserialize`: a map, or — through the derived visitor's
`visit_seq`, which `serde_json` reaches from a JSON array — the fields
positionally in declaration order, exactly two of them (the error for a
wrong arity is summarized as one invalid-length error; the real visitor
decodes the leading elements before noticing a short array). -/
def decodeEntry : Json → Except DecodeError ChatEntry
  | .obj fs => entryFields fs none none
  | .arr [r, c] => do
    .ok ⟨← decodeRole r, ← decodeString c⟩
  | .arr _ => .error (.invalidLength 2)
  | _ => .error (.invalidType "struct ChatEntry")

/-- Element loop for decoding a sequence of chat entries. -/
def decodeEntryList : List Json → Except DecodeError (List ChatEntry)
  | [] => .ok []
  | j :: rest => do
    let e ← decodeEntry j
    let es ← decodeEntryList rest
    .ok (e :: es)

/-- `ChatLog`'s `Deserialize`: the newtype struct reads its inner sequence. -/
def decodeChatLog : Json → Except DecodeError ChatLog
  | .arr xs => do .ok ⟨← decodeEntryList xs⟩
  | _ => .error (.invalidType "a sequence")

/-- Field loop of `CompletionUsage`'s derived `Deserialize`. -/
def usageFields : List (String × Json) → Option Nat → Option Nat → Option Nat →
    Except DecodeError CompletionUsage
  | [], some p, some c, some t => .ok ⟨p, c, t⟩
  | [], none, _, _ => .error (.missingField "prompt_tokens")
  | [], some _, none, _ => .error (.missingField "completion_tokens")
  | [], some _, some _, none => .error (.missingField "total_tokens")
  | (k, v) :: rest, p?, c?, t? =>
    if k = "prompt_tokens" then
      match p? with
      | some _ => .error (.duplicateField "prompt_tokens")
      | none => do usageFields rest (some (← decodeUsize v)) c? t?
    else if k = "completion_tokens" then
      match c? with
      | some _ => .error (.duplicateField "completion_tokens")
      | none => do usageFields rest p? (some (← decodeUsize v)) t?
    else if k = "total_tokens" then
      match t? with
      | some _ => .error (.duplicateField "total_tokens")
      | none => do usageFields rest p? c? (some (← decodeUsize v))
    else usageFields rest p? c? t?

/-- `CompletionUsage`'s `Deserialize`: a map, or the positional sequence
form with exactly the three counters in declaration order. -/
def decodeUsage : Json → Except DecodeError CompletionUsage
  | .obj fs => usageFields fs none none none
  | .arr [p, c, t] => do
    .ok ⟨← decodeUsize p, ← decodeUsize c, ← decodeUsize t⟩
  | .arr _ => .error (.invalidLength 3)
  | _ => .error (.invalidType "struct CompletionUsage")

/-- Field loop of `ChatCompletionChoice`'s derived `Deserialize`. -/
def choiceFields : List (String × Json) → Option Nat → Option ChatEntry →
    Option FinishReason → Except DecodeError ChatCompletionChoice
  | [], some i, some m, some f => .ok ⟨i, m, f⟩
  | [], none, _, _ => .error (.missingField "index")
  | [], some _, none, _ => .error (.missingField "message")
  | [], some _, some _, none => .error (.missingField "finish_reason")
  | (k, v) :: rest, i?, m?, f? =>
    if k = "index" then
      match i? with
      | some _ => .error (.duplicateField "index")
      | none => do choiceFields rest (some (← decodeUsize v)) m? f?
    else if k = "message" then
      match m? with
      | some _ => .error (.duplicateField "message")
      | none => do choiceFields rest i? (some (← decodeEntry v)) f?
    else if k = "finish_reason" then
      match f? with
      | some _ => .error (.duplicateField "finish_reason")
      | none => do choiceFields rest i? m? (some (← decodeFinish v))
    else choiceFields rest i? m? f?

/-- `ChatCompletionChoice`'s `Deserialize`: a map, or the positional
sequence form with exactly index, message, finish reason. -/
def decodeChoice : Json → Except DecodeError ChatCompletionChoice
  | .obj fs => choiceFields fs none none none
  | .arr [i, m, f] => do
    .ok ⟨← decodeUsize i, ← decodeEntry m, ← decodeFinish f⟩
  | .arr _ => .error (.invalidLength 3)
  | _ => .error (.invalidType "struct ChatCompletionChoice")

/-- Element loop for decoding the `choices` sequence. -/
def decodeChoiceList : List Json → Except DecodeError (List ChatCompletionChoice)
  | [] => .ok []
  | j :: rest => do
    let c ← decodeChoice j
    let cs ← decodeChoiceList rest
    .ok (c :: cs)

/-- Decoding the `choices` field: a sequence of choices, possibly empty. -/
def decodeChoices : Json → Except DecodeError (List ChatCompletionChoice)
  | .arr xs => decodeChoiceList xs
  | _ => .error (.invalidType "a sequence")

/-- Field loop of `ChatCompletionResponse`'s derived `Deserialize`. -/
def responseFields : List (String × Json) → Option String → Option String →
    Option Nat → Option (List ChatCompletionChoice) → Option CompletionUsage →
    Except DecodeError ChatCompletionResponse
  | [], some i, some o, some cr, some ch, some u => .ok ⟨i, o, cr, ch, u⟩
  | [], none, _, _, _, _ => .error (.missingField "id")
  | [], some _, none, _, _, _ => .error (.missingField "object")
  | [], some _, some _, none, _, _ => .error (.missingField "created")
  | [], some _, some _, some _, none, _ => .error (.missingField "choices")
  | [], some _, some _, some _, some _, none => .error (.missingField "usage")
  | (k, v) :: rest, i?, o?, cr?, ch?, u? =>
    if k = "id" then
      match i? with
      | some _ => .error (.duplicateField "id")
      | none => do responseFields rest (some (← decodeString v)) o? cr? ch? u?
    else if k = "object" then
      match o? with
      | some _ => .error (.duplicateField "object")
      | none => do responseFields rest i? (some (← decodeString v)) cr? ch? u?
    else if k = "created" then
      match cr? with
      | some _ => .error (.duplicateField "created")
      | none => do responseFields rest i? o? (some (← decodeUsize v)) ch? u?
    else if k = "choices" then
      match ch? with
      | some _ => .error (.duplicateField "choices")
      | none => do responseFields rest i? o? cr? (some (← decodeChoices v)) u?
    else if k = "usage" then
      match u? with
      | some _ => .error (.duplicateField "usage")
      | none => do responseFields rest i? o? cr? ch? (some (← decodeUsage v))
    else responseFields rest i? o? cr? ch? u?

/-- `ChatCompletionResponse`'s `Deserialize`: a map, or the positional
sequence form with exactly the five fields in declaration order. -/
def decodeResponse : Json → Except DecodeError ChatCompletionResponse
  | .obj fs => responseFields fs none none none none none
  | .arr [i, o, cr, ch, u] => do
    .ok ⟨← decodeString i, ← decodeString o, ← decodeUsize cr,
      ← decodeChoices ch, ← decodeUsage u⟩
  | .arr _ => .error (.invalidLength 5)
  | _ => .error (.invalidType "struct ChatCompletionResponse")

/-! ## The compact text format of `serde_json` (renderer) -/

/-- `serde_json`'s string escaping: quote, backslash and the five short
control escapes get a two-character escape, other control characters get
a `\u00XX` escape (lowercase hex, via `Nat.digitChar`), and everything
else is emitted verbatim. -/
def escapeChar (c : Char) : List Char :=
  if c = '"' then ['\\', '"']
  else if c = '\\' then ['\\', '\\']
  else if c = '\x08' then ['\\', 'b']
  else if c = '\x09' then ['\\', 't']
  else if c = '\x0a' then ['\\', 'n']
  else if c = '\x0c' then ['\\', 'f']
  else if c = '\x0d' then ['\\', 'r']
  else if c.toNat < 0x20 then
    '\\' :: 'u' :: '0' :: '0' ::
      Nat.digitChar (c.toNat / 16) :: [Nat.digitChar (c.toNat % 16)]
  else [c]

/-- Escape every character of a string body. -/
def escapeList : List Char → List Char
  | [] => []
  | c :: rest => escapeChar c ++ escapeList rest

/-- A rendered JSON string: quoted, escaped body. -/
def renderString (s : String) : List Char :=
  '"' :: (escapeList s.data ++ ['"'])

/-- A rendered JSON number.  Floats only arise on the decode side of this
client, so their `ryu` text format is not modelled beyond a placeholder
fractional part; no claim renders a float. -/
def renderNum (v : Int) (isFloat : Bool) : List Char :=
  let mag := Nat.toDigits 10 v.natAbs
  let intPart := if v < 0 then '-' :: mag else mag
  if isFloat then intPart ++ ['.', '0'] else intPart

mutual

/-- Compact rendering of a JSON value, as `serde_json::to_string`. -/
def render : Json → List Char
  | .null => "null".data
  | .bool true => "true".data
  | .bool false => "false".data
  | .num v f => renderNum v f
  | .str s => renderString s
  | .arr es => '[' :: (renderElems es ++ [']'])
  | .obj fs => '\x7b' :: (renderFields fs ++ ['\x7d'])

/-- Comma-separated rendering of array elements. -/
def renderElems : List Json → List Char
  | [] => []
  | [e] => render e
  | e :: es => render e ++ ',' :: renderElems es

/-- Comma-separated rendering of object members. -/
def renderFields : List (String × Json) → List Char
  | [] => []
  | [(k, v)] => renderString k ++ ':' :: render v
  | (k, v) :: fs => renderString k ++ ':' :: render v ++ ',' :: renderFields fs

end

/-- `serde_json::to_string` on a JSON value. -/
def renderJson (j : Json) : String :=
  ⟨render j⟩

/-! ## The JSON text parser (modelling `serde_json`'s reader)

Surrogate-pair `\uXXXX` escapes are not modelled (a lone surrogate is
rejected); nothing this client renders or any claim exercises them. -/

/-- Value of a hexadecimal digit character. -/
def hexVal (c : Char) : Option Nat :=
  if '0' ≤ c ∧ c ≤ '9' then some (c.toNat - 48)
  else if 'a' ≤ c ∧ c ≤ 'f' then some (c.toNat - 87)
  else if 'A' ≤ c ∧ c ≤ 'F' then some (c.toNat - 55)
  else none

/-- JSON insignificant whitespace. -/
def isWsChar (c : Char) : Bool :=
  c = ' ' || c = '\t' || c = '\n' || c = '\r'

/-- Skip insignificant whitespace. -/
def skipWs : List Char → List Char
  | [] => []
  | c :: rest => if isWsChar c then skipWs rest else c :: rest

/-- Parse a string body after the opening quote, up to and including the
closing quote; raw control characters are rejected, escapes are decoded. -/
def parseStrBody : List Char → Option (List Char × List Char)
  | [] => none
  | '"' :: rest => some ([], rest)
  | '\\' :: 'u' :: h1 :: h2 :: h3 :: h4 :: rest =>
    match hexVal h1, hexVal h2, hexVal h3, hexVal h4 with
    | some a, some b, some c, some d =>
      let n := ((a * 16 + b) * 16 + c) * 16 + d
      if n < 0xd800 ∨ 0xe000 ≤ n then
        (parseStrBody rest).map (fun p => (Char.ofNat n :: p.1, p.2))
      else none
    | _, _, _, _ => none
  | '\\' :: e :: rest =>
    if e = '"' then (parseStrBody rest).map (fun p => ('"' :: p.1, p.2))
    else if e = '\\' then (parseStrBody rest).map (fun p => ('\\' :: p.1, p.2))
    else if e = '/' then (parseStrBody rest).map (fun p => ('/' :: p.1, p.2))
    else if e = 'b' then (parseStrBody rest).map (fun p => ('\x08' :: p.1, p.2))
    else if e = 't' then (parseStrBody rest).map (fun p => ('\x09' :: p.1, p.2))
    else if e = 'n' then (parseStrBody rest).map (fun p => ('\x0a' :: p.1, p.2))
    else if e = 'f' then (parseStrBody rest).map (fun p => ('\x0c' :: p.1, p.2))
    else if e = 'r' then (parseStrBody rest).map (fun p => ('\x0d' :: p.1, p.2))
    else none
  | ['\\'] => none
  | c :: rest =>
    if c.toNat < 0x20 then none
    else (parseStrBody rest).map (fun p => (c :: p.1, p.2))

/-- Longest digit prefix of the input. -/
def takeDigits : List Char → List Char × List Char
  | [] => ([], [])
  | c :: rest =>
    if c.isDigit then
      let p := takeDigits rest
      (c :: p.1, p.2)
    else ([], c :: rest)

/-- Accumulate a digit list into a natural number. -/
def digitsToNat (acc : Nat) : List Char → Nat
  | [] => acc
  | c :: rest => digitsToNat (acc * 10 + (c.toNat - 48)) rest

/-- Optional exponent part; its presence makes the number a float. -/
def parseExpPart (v : Int) (isFloat : Bool) (input : List Char) :
    Option (Json × List Char) :=
  match input with
  | 'e' :: rest =>
    let rest2 := match rest with
      | '+' :: r => r
      | '-' :: r => r
      | r => r
    (match takeDigits rest2 with
     | ([], _) => none
     | (_ :: _, rest3) => some (.num v true, rest3))
  | 'E' :: rest =>
    let rest2 := match rest with
      | '+' :: r => r
      | '-' :: r => r
      | r => r
    (match takeDigits rest2 with
     | ([], _) => none
     | (_ :: _, rest3) => some (.num v true, rest3))
  | _ => some (.num v isFloat, input)

/-- Optional fraction part; its presence makes the number a float.  The
`big` flag carries whether the bare integer literal already fell back to
`f64` because it does not fit the machine integer range. -/
def parseFracPart (v : Int) (big : Bool) (input : List Char) :
    Option (Json × List Char) :=
  match input with
  | '.' :: rest =>
    (match takeDigits rest with
     | ([], _) => none
     | (_ :: _, rest2) => parseExpPart v true rest2)
  | _ => parseExpPart v big input

/-- Parse a JSON number: optional sign, integer part with no leading zero,
optional fraction and exponent.  As in `serde_json`, an integer literal
beyond `u64::MAX` (or, negated, below `i64::MIN`) is held as an `f64`, so
it carries the float flag and the integer visitors reject it. -/
def parseNum (input : List Char) : Option (Json × List Char) :=
  let signed : Bool × List Char :=
    match input with
    | '-' :: rest => (true, rest)
    | _ => (false, input)
  match takeDigits signed.2 with
  | ([], _) => none
  | (d :: ds, rest1) =>
    if d = '0' ∧ ds ≠ [] then none
    else
      let magNat : Nat := digitsToNat 0 (d :: ds)
      let mag : Int := magNat
      let big : Bool :=
        if signed.1 then decide (2 ^ 63 < magNat) else decide (2 ^ 64 ≤ magNat)
      parseFracPart (if signed.1 then -mag else mag) big rest1

mutual

/-- Parse one JSON value; the fuel bounds the number of nested values. -/
def parseVal : Nat → List Char → Option (Json × List Char)
  | 0, _ => none
  | fuel + 1, input =>
    match skipWs input with
    | 'n' :: 'u' :: 'l' :: 'l' :: rest => some (.null, rest)
    | 't' :: 'r' :: 'u' :: 'e' :: rest => some (.bool true, rest)
    | 'f' :: 'a' :: 'l' :: 's' :: 'e' :: rest => some (.bool false, rest)
    | '"' :: rest => (parseStrBody rest).map (fun p => (.str ⟨p.1⟩, p.2))
    | '[' :: rest =>
      (match skipWs rest with
       | ']' :: rest2 => some (.arr [], rest2)
       | rest2 => (parseElems fuel rest2).map (fun p => (.arr p.1, p.2)))
    | '\x7b' :: rest =>
      (match skipWs rest with
       | '\x7d' :: rest2 => some (.obj [], rest2)
       | rest2 => (parseMembers fuel rest2).map (fun p => (.obj p.1, p.2)))
    | c :: rest =>
      if c = '-' ∨ c.isDigit then parseNum (c :: rest) else none
    | [] => none

/-- Parse the elements of a non-empty array, consuming the closing bracket. -/
def parseElems : Nat → List Char → Option (List Json × List Char)
  | 0, _ => none
  | fuel + 1, input => do
    let (v, rest) ← parseVal fuel input
    match skipWs rest with
    | ',' :: rest2 => do
      let (vs, rest3) ← parseElems fuel rest2
      some (v :: vs, rest3)
    | ']' :: rest2 => some ([v], rest2)
    | _ => none

/-- Parse the members of a non-empty object, consuming the closing brace. -/
def parseMembers : Nat → List Char → Option (List (String × Json) × List Char)
  | 0, _ => none
  | fuel + 1, input =>
    match skipWs input with
    | '"' :: rest => do
      let (k, rest1) ← parseStrBody rest
      match skipWs rest1 with
      | ':' :: rest2 => do
        let (v, rest3) ← parseVal fuel rest2
        (match skipWs rest3 with
         | ',' :: rest4 => do
           let (ms, rest5) ← parseMembers fuel rest4
           some ((⟨k⟩, v) :: ms, rest5)
         | '\x7d' :: rest4 => some ([(⟨k⟩, v)], rest4)
         | _ => none)
      | _ => none
    | _ => none

end

/-- `serde_json::from_str`'s outer loop: parse one value and insist on
nothing but whitespace after it.  One unit of fuel per input character
plus one suffices for any parse that can succeed. -/
def parseJson (s : String) : Option Json :=
  match parseVal (s.data.length + 1) s.data with
  | some (j, rest) => if skipWs rest = [] then some j else none
  | none => none

/-- `FinishReason`'s `Serialize`: each variant is its renamed lowercase token. -/
def FinishReason.toJson : FinishReason → Json
  | .Stop => .str "stop"
  | .Length => .str "length"

/-! ## The wire-level entry points the client uses -/

/-- `serde_json::to_string` of a request, as performed by
`reqwest`'s `.json(&request)`. -/
def requestToString (r : ChatCompletionRequest) : String :=
  renderJson r.toJson

/-- `serde_json::to_string` of a chat log. -/
def chatLogToString (l : ChatLog) : String :=
  renderJson l.toJson

/-- `serde_json::from_str` of a chat log. -/
def chatLogFromString (s : String) : Except DecodeError ChatLog :=
  match parseJson s with
  | none => .error .parseFailed
  | some j => decodeChatLog j

/-- `serde_json::from_str` of a response body, as performed by
`reqwest`'s `.json::<ChatCompletionResponse>()`. -/
def responseFromString (s : String) : Except DecodeError ChatCompletionResponse :=
  match parseJson s with
  | none => .error .parseFailed
  | some j => decodeResponse j

/-! ## The API client (`struct OpenAI` and `complete_chat`) -/

/-- Transport-layer failures of the blocking `reqwest` send. -/
inductive TransportError : Type where
  | connectionRefused : TransportError
  | other (message : String) : TransportError
deriving DecidableEq

/-- `reqwest::Error`, observed through its kind: `complete_chat` returns
`Result<_, reqwest::Error>`, whose value records whether the failure came
from the send (transport) or from `.json()` (decode) — the distinction
`reqwest::Error::is_decode` exposes to callers. -/
inductive ApiError : Type where
  | transport (e : TransportError) : ApiError
  | decode (e : DecodeError) : ApiError
deriving DecidableEq

/-- The OpenAI api client (`struct OpenAI`); the reusable HTTP client
handle is opaque and carries no observable state in this model. -/
structure OpenAI : Type where
  api_key : String

/-- One network exchange: the serialized request body goes out and either a
transport-layer error or a reply body comes back.  The network is outside
the program, so it enters the model as this oracle. -/
def Transport : Type :=
  String → Except TransportError String

/-- `OpenAI::complete_chat`: build the request from the chat log via
`From<ChatLog>`, serialize it, send it (`send()?` propagates a transport
failure before any decoding happens), then decode the reply body as a
`ChatCompletionResponse`. -/
def OpenAI.complete_chat (_client : OpenAI) (send : Transport) (chat : ChatLog) :
    Except ApiError ChatCompletionResponse :=
  let request := ChatCompletionRequest.fromChatLog chat
  match send (requestToString request) with
  | .error e => .error (.transport e)
  | .ok body =>
    match responseFromString body with
    | .error e => .error (.decode e)
    | .ok response => .ok response

/-! ## Shape predicates over JSON values

These are written from the spec's words (§4.1 of the spec), to be compared
with the decoders translated from the source: a value decodes as a given
field type iff it has the declared shape.  `fieldOkSpec` is the literal
reading of the claim (the field is present and no occurrence of it has a
type disagreement); `fieldOkOnce` is the amended reading (the field occurs
exactly once, with the declared shape), which is what the derived
deserializers actually enforce — they reject duplicated fields. -/

/-- Declared type text: the value is a string. -/
def isStrVal : Json → Bool
  | .str _ => true
  | _ => false

/-- Declared type non-negative integer: an integral, non-negative number. -/
def isUIntVal : Json → Bool
  | .num v isFloat => !isFloat && decide (0 ≤ v)
  | _ => false

/-- The closed Role token set, over the bare token string. -/
def roleTok (s : String) : Bool :=
  s == "system" || s == "user" || s == "assistant"

/-- The closed FinishReason token set, over the bare token string. -/
def finishTok (s : String) : Bool :=
  s == "stop" || s == "length"

/-- Role shapes the enum deserializer accepts: the bare token string, or
`serde_json`'s single-entry map form with null content. -/
def isRoleTok : Json → Bool
  | .str s => roleTok s
  | .obj [(s, .null)] => roleTok s
  | _ => false

/-- FinishReason shapes the enum deserializer accepts. -/
def isFinishTok : Json → Bool
  | .str s => finishTok s
  | .obj [(s, .null)] => finishTok s
  | _ => false

/-- Role field as the claim reads it: a bare token string. -/
def isRoleTokSpec : Json → Bool
  | .str s => roleTok s
  | _ => false

/-- FinishReason field as the claim reads it: a bare token string. -/
def isFinishTokSpec : Json → Bool
  | .str s => finishTok s
  | _ => false

/-- The claim's reading of one required field: present, and every
occurrence of it agrees with the declared type. -/
def fieldOkSpec (fs : List (String × Json)) (k : String) (p : Json → Bool) : Bool :=
  fs.any (fun kv => kv.1 == k) && fs.all (fun kv => !(kv.1 == k) || p kv.2)

/-- The amended reading of one required field: occurs exactly once, with
the declared shape. -/
def fieldOkOnce (fs : List (String × Json)) (k : String) (p : Json → Bool) : Bool :=
  match fs.filter (fun kv => kv.1 == k) with
  | [kv] => p kv.2
  | _ => false

/-- Message shape (amended reading): the map form with each field exactly
once, or the positional sequence form. -/
def entryShape : Json → Bool
  | .obj fs => fieldOkOnce fs "role" isRoleTok && fieldOkOnce fs "content" isStrVal
  | .arr [r, c] => isRoleTok r && isStrVal c
  | _ => false

/-- Choice shape (amended reading): map form or positional sequence. -/
def choiceShape : Json → Bool
  | .obj fs =>
    fieldOkOnce fs "index" isUIntVal && fieldOkOnce fs "message" entryShape &&
      fieldOkOnce fs "finish_reason" isFinishTok
  | .arr [i, m, f] => isUIntVal i && entryShape m && isFinishTok f
  | _ => false

/-- `choices` shape: a sequence of choices, possibly empty. -/
def choicesShape : Json → Bool
  | .arr es => es.all choiceShape
  | _ => false

/-- Usage shape (amended reading): map form or positional sequence. -/
def usageShape : Json → Bool
  | .obj fs =>
    fieldOkOnce fs "prompt_tokens" isUIntVal &&
      fieldOkOnce fs "completion_tokens" isUIntVal &&
      fieldOkOnce fs "total_tokens" isUIntVal
  | .arr [p, c, t] => isUIntVal p && isUIntVal c && isUIntVal t
  | _ => false

/-- Response shape (amended reading): exactly the conditions under which
the derived `Deserialize` accepts a JSON value — the map form with each
required field exactly once and validly typed, or the positional sequence
form with exactly the five fields in declaration order. -/
def responseShape : Json → Bool
  | .obj fs =>
    fieldOkOnce fs "id" isStrVal && fieldOkOnce fs "object" isStrVal &&
      fieldOkOnce fs "created" isUIntVal && fieldOkOnce fs "choices" choicesShape &&
      fieldOkOnce fs "usage" usageShape
  | .arr [i, o, cr, ch, u] =>
    isStrVal i && isStrVal o && isUIntVal cr && choicesShape ch && usageShape u
  | _ => false

/-- Message shape, literal claim reading (duplicates not excluded). -/
def entryShapeSpec : Json → Bool
  | .obj fs => fieldOkSpec fs "role" isRoleTokSpec && fieldOkSpec fs "content" isStrVal
  | _ => false

/-- Choice shape, literal claim reading. -/
def choiceShapeSpec : Json → Bool
  | .obj fs =>
    fieldOkSpec fs "index" isUIntVal && fieldOkSpec fs "message" entryShapeSpec &&
      fieldOkSpec fs "finish_reason" isFinishTokSpec
  | _ => false

/-- `choices` shape, literal claim reading. -/
def choicesShapeSpec : Json → Bool
  | .arr es => es.all choiceShapeSpec
  | _ => false

/-- Usage shape, literal claim reading. -/
def usageShapeSpec : Json → Bool
  | .obj fs =>
    fieldOkSpec fs "prompt_tokens" isUIntVal &&
      fieldOkSpec fs "completion_tokens" isUIntVal &&
      fieldOkSpec fs "total_tokens" isUIntVal
  | _ => false

/-- Response shape as the claim states it: no valid JSON payload with every
required field present with the declared type and closed-set enum tokens
should be a decode failure. -/
def responseShapeSpec : Json → Bool
  | .obj fs =>
    fieldOkSpec fs "id" isStrVal && fieldOkSpec fs "object" isStrVal &&
      fieldOkSpec fs "created" isUIntVal && fieldOkSpec fs "choices" choicesShapeSpec &&
      fieldOkSpec fs "usage" usageShapeSpec
  | _ => false


/-- No occurrence of the key in the member list. -/
def keyAbsent (fs : List (String × Json)) (k : String) : Bool :=
  (fs.filter (fun kv => kv.1 == k)).isEmpty

/-- What remains to be satisfied for one field given the decoder loop's
accumulator: still-unset means the field must occur exactly once and
validly in the remaining entries; already-set means it must not occur
again. -/
def fieldState {α : Type} (fs : List (String × Json)) (k : String)
    (p : Json → Bool) : Option α → Bool
  | none => fieldOkOnce fs k p
  | some _ => keyAbsent fs k

/-! ## Cost and number-freedom, for the text round trip -/

mutual

/-- Fuel needed by `parseVal` to traverse a value: one per nested value
plus one per aggregate element. -/
def jcost : Json → Nat
  | .arr es => jcostElems es + 1
  | .obj fs => jcostFields fs + 1
  | _ => 1

/-- Fuel needed by `parseElems`. -/
def jcostElems : List Json → Nat
  | [] => 0
  | e :: es => jcost e + 1 + jcostElems es

/-- Fuel needed by `parseMembers`. -/
def jcostFields : List (String × Json) → Nat
  | [] => 0
  | f :: fs => jcost f.2 + 1 + jcostFields fs

end

mutual

/-- Values containing no numbers.  The request encoding of any chat log is
number-free; the parse/render inversion is proved on this set (float
rendering is not modelled, see `renderNum`). -/
def numFree : Json → Bool
  | .null => true
  | .bool _ => true
  | .num _ _ => false
  | .str _ => true
  | .arr es => numFreeElems es
  | .obj fs => numFreeFields fs

/-- All elements number-free. -/
def numFreeElems : List Json → Bool
  | [] => true
  | e :: es => numFree e && numFreeElems es

/-- All member values number-free. -/
def numFreeFields : List (String × Json) → Bool
  | [] => true
  | f :: fs => numFree f.2 && numFreeFields fs

end

/-! # Theorems -/

set_option maxRecDepth 40000

theorem ok_bind {err val out : Type} {g : val → Except err out} (x : val) :
    (Except.ok x >>= g : Except err out) = g x := rfl

theorem error_bind {err val out : Type} {g : val → Except err out} (x : err) :
    (Except.error x >>= g : Except err out) = .error x := rfl

/-! ## Value-level round trip (decode after encode) -/

theorem decodeRole_toJson (r : ChatRole) : decodeRole r.toJson = .ok r := by
  cases r <;> rfl

theorem decodeFinish_toJson (f : FinishReason) : decodeFinish f.toJson = .ok f := by
  cases f <;> rfl

theorem decodeEntry_toJson (e : ChatEntry) : decodeEntry e.toJson = .ok e := by
  obtain ⟨r, c⟩ := e
  cases r <;> rfl

theorem decodeEntryList_toJson (es : List ChatEntry) :
    decodeEntryList (es.map ChatEntry.toJson) = .ok es := by
  induction es with
  | nil => rfl
  | cons e es ih =>
    simp only [List.map_cons, decodeEntryList, decodeEntry_toJson, ok_bind, ih]

theorem decodeChatLog_toJson (l : ChatLog) : decodeChatLog l.toJson = .ok l := by
  obtain ⟨es⟩ := l
  simp only [ChatLog.toJson, decodeChatLog, decodeEntryList_toJson, ok_bind]

/-! ## C2, C3, C7, C8 -/

/-! ## Text-level round trip machinery for C1 -/

theorem skipWs_cons {c : Char} (h : isWsChar c = false) (l : List Char) :
    skipWs (c :: l) = c :: l := by
  simp [skipWs, h]

theorem hexVal_digitChar (n : Nat) (h : n < 16) :
    hexVal (Nat.digitChar n) = some n := by
  interval_cases n <;> rfl

theorem parseStrBody_escapeList (s : List Char) (rest : List Char) :
    parseStrBody (escapeList s ++ '"' :: rest) = some (s, rest) := by
  induction s with
  | nil => rfl
  | cons c cs ih =>
    show parseStrBody (escapeChar c ++ escapeList cs ++ '"' :: rest) = _
    rw [escapeChar]
    by_cases h1 : c = '"'
    · subst h1; simp only [if_pos rfl, List.cons_append, List.nil_append]
      show parseStrBody ('\\' :: '"' :: (escapeList cs ++ '"' :: rest)) = _
      simp [parseStrBody, ih]
    · rw [if_neg h1]
      by_cases h2 : c = '\\'
      · subst h2; simp only [if_pos rfl, List.cons_append, List.nil_append]
        show parseStrBody ('\\' :: '\\' :: (escapeList cs ++ '"' :: rest)) = _
        simp [parseStrBody, ih]
      · rw [if_neg h2]
        by_cases h3 : c = '\x08'
        · subst h3; simp [parseStrBody, ih]
        · rw [if_neg h3]
          by_cases h4 : c = '\x09'
          · subst h4; simp [parseStrBody, ih]
          · rw [if_neg h4]
            by_cases h5 : c = '\x0a'
            · subst h5; simp [parseStrBody, ih]
            · rw [if_neg h5]
              by_cases h6 : c = '\x0c'
              · subst h6; simp [parseStrBody, ih]
              · rw [if_neg h6]
                by_cases h7 : c = '\x0d'
                · subst h7; simp [parseStrBody, ih]
                · rw [if_neg h7]
                  by_cases h8 : c.toNat < 0x20
                  · rw [if_pos h8]
                    simp only [List.cons_append, List.nil_append]
                    show parseStrBody ('\\' :: 'u' :: '0' :: '0' ::
                      Nat.digitChar (c.toNat / 16) :: Nat.digitChar (c.toNat % 16) ::
                      (escapeList cs ++ '"' :: rest)) = _
                    rw [parseStrBody]
                    have hd : c.toNat / 16 < 16 := by omega
                    have hm : c.toNat % 16 < 16 := by omega
                    rw [hexVal_digitChar _ hd, hexVal_digitChar _ hm]
                    have hn : (c.toNat / 16) * 16 + c.toNat % 16 = c.toNat := by omega
                    have hlt : c.toNat < 0xd800 ∨ 0xe000 ≤ c.toNat := Or.inl (by omega)
                    simp [show hexVal '0' = some 0 from rfl, hn, hlt, ih, Char.ofNat_toNat]
                  · rw [if_neg h8]
                    simp only [List.cons_append, List.nil_append]
                    rw [parseStrBody.eq_def]
                    split
                    · simp_all
                    · simp_all
                    · simp_all
                    · simp_all
                    · simp_all
                    · rename_i c' rest' heq
                      rw [List.cons.injEq] at heq
                      obtain ⟨rfl, rfl⟩ := heq
                      rw [if_neg h8, ih]
                      rfl

theorem mk_data (s : String) : String.mk s.data = s := rfl

theorem some_bind {val out : Type} {g : val → Option out} (x : val) :
    (some x >>= g : Option out) = g x := rfl

theorem jcost_pos (j : Json) : 1 ≤ jcost j := by
  cases j <;> simp [jcost]

theorem render_head (j : Json) (h : numFree j = true) :
    ∃ c t, render j = c :: t ∧ isWsChar c = false ∧ c ≠ ']' := by
  cases j with
  | null => exact ⟨'n', _, rfl, rfl, by decide⟩
  | bool b =>
    cases b with
    | false => exact ⟨'f', _, rfl, rfl, by decide⟩
    | true => exact ⟨'t', _, rfl, rfl, by decide⟩
  | num v f => simp [numFree] at h
  | str s => exact ⟨'"', _, rfl, rfl, by decide⟩
  | arr es => exact ⟨'[', _, rfl, rfl, by decide⟩
  | obj fs => exact ⟨'\x7b', _, rfl, rfl, by decide⟩

theorem parseVal_str_head (f : Nat) (l : List Char) :
    parseVal (f + 1) ('"' :: l) =
      (parseStrBody l).map (fun p => (.str ⟨p.1⟩, p.2)) := rfl

theorem parseVal_lbrack_head (f : Nat) (l : List Char) :
    parseVal (f + 1) ('[' :: l) =
      (match skipWs l with
       | ']' :: rest2 => some (.arr [], rest2)
       | rest2 => (parseElems f rest2).map (fun p => (.arr p.1, p.2))) := rfl

theorem parseVal_lbrace_head (f : Nat) (l : List Char) :
    parseVal (f + 1) ('\x7b' :: l) =
      (match skipWs l with
       | '\x7d' :: rest2 => some (.obj [], rest2)
       | rest2 => (parseMembers f rest2).map (fun p => (.obj p.1, p.2))) := rfl

theorem renderElems_cons_ne (e : Json) (es : List Json) (h : es ≠ []) :
    renderElems (e :: es) = render e ++ ',' :: renderElems es := by
  cases es with
  | nil => exact absurd rfl h
  | cons e2 es2 => rfl

theorem renderFields_cons_ne (kv : String × Json) (fs : List (String × Json))
    (h : fs ≠ []) :
    renderFields (kv :: fs) =
      renderString kv.1 ++ ':' :: render kv.2 ++ ',' :: renderFields fs := by
  cases fs with
  | nil => exact absurd rfl h
  | cons f2 fs2 => rfl

theorem parse_render_fuel : ∀ f : Nat,
    (∀ j rest, numFree j = true → jcost j ≤ f →
      parseVal f (render j ++ rest) = some (j, rest)) ∧
    (∀ es rest, es ≠ [] → numFreeElems es = true → jcostElems es ≤ f →
      parseElems f (renderElems es ++ ']' :: rest) = some (es, rest)) ∧
    (∀ fs rest, fs ≠ [] → numFreeFields fs = true → jcostFields fs ≤ f →
      parseMembers f (renderFields fs ++ '\x7d' :: rest) = some (fs, rest)) := by
  intro f
  induction f with
  | zero =>
    refine ⟨fun j rest hnf hc => absurd hc (by have := jcost_pos j; omega), ?_, ?_⟩
    · intro es rest hne hnf hc
      cases es with
      | nil => exact absurd rfl hne
      | cons e es => simp [jcostElems] at hc
    · intro fs rest hne hnf hc
      cases fs with
      | nil => exact absurd rfl hne
      | cons kv fs => simp [jcostFields] at hc
  | succ f ih =>
    obtain ⟨ihv, ihe, ihf⟩ := ih
    have hval : ∀ j rest, numFree j = true → jcost j ≤ f + 1 →
        parseVal (f + 1) (render j ++ rest) = some (j, rest) := by
      intro j rest hnf hc
      cases j with
      | null => rfl
      | bool b => cases b <;> rfl
      | num v fl => simp [numFree] at hnf
      | str s =>
        show parseVal (f + 1) (('"' :: (escapeList s.data ++ ['"'])) ++ rest) = _
        rw [List.cons_append, List.append_assoc, List.singleton_append,
          parseVal_str_head, parseStrBody_escapeList]
        simp [mk_data]
      | arr es =>
        cases es with
        | nil => rfl
        | cons e es =>
          have hnfe : numFree e = true ∧ numFreeElems es = true := by
            simpa [numFree, numFreeElems, Bool.and_eq_true] using hnf
          have hce : jcostElems (e :: es) ≤ f := by
            simp only [jcost] at hc; omega
          show parseVal (f + 1) (('[' :: (renderElems (e :: es) ++ [']'])) ++ rest) = _
          rw [List.cons_append, List.append_assoc, List.singleton_append,
            parseVal_lbrack_head]
          obtain ⟨c, t, hct, hws, hne⟩ := render_head e hnfe.1
          have hsplit : ∃ m, renderElems (e :: es) ++ ']' :: rest = render e ++ m := by
            cases es with
            | nil => exact ⟨']' :: rest, by simp [renderElems]⟩
            | cons e2 es2 =>
              exact ⟨',' :: (renderElems (e2 :: es2) ++ ']' :: rest), by
                simp [renderElems, List.append_assoc]⟩
          obtain ⟨m, hm⟩ := hsplit
          rw [hm, hct, List.cons_append, skipWs_cons hws]
          have helems : parseElems f (renderElems (e :: es) ++ ']' :: rest) =
              some (e :: es, rest) :=
            ihe (e :: es) rest (by simp) (by
              simp [numFreeElems, hnfe.1, hnfe.2]) hce
          split
          · rename_i r2 heq
            rw [List.cons.injEq] at heq
            exact absurd heq.1 hne
          · rw [← List.cons_append, ← hct, ← hm, helems]
            rfl
      | obj fs =>
        cases fs with
        | nil => rfl
        | cons kv fs =>
          have hnfe : numFree kv.2 = true ∧ numFreeFields fs = true := by
            simpa [numFree, numFreeFields, Bool.and_eq_true] using hnf
          have hce : jcostFields (kv :: fs) ≤ f := by
            simp only [jcost] at hc; omega
          show parseVal (f + 1)
            (('\x7b' :: (renderFields (kv :: fs) ++ ['\x7d'])) ++ rest) = _
          rw [List.cons_append, List.append_assoc, List.singleton_append,
            parseVal_lbrace_head]
          have hsplit : ∃ m, renderFields (kv :: fs) ++ '\x7d' :: rest =
              '"' :: m := by
            cases fs with
            | nil =>
              exact ⟨(escapeList kv.1.data ++ ['"']) ++
                (':' :: render kv.2 ++ '\x7d' :: rest), by
                  cases kv with
                  | mk k v => simp [renderFields, renderString, List.append_assoc]⟩
            | cons f2 fs2 =>
              exact ⟨(escapeList kv.1.data ++ ['"']) ++
                (':' :: render kv.2 ++ ',' :: renderFields (f2 :: fs2) ++
                  '\x7d' :: rest), by
                  cases kv with
                  | mk k v => simp [renderFields, renderString, List.append_assoc]⟩
          obtain ⟨m, hm⟩ := hsplit
          rw [hm, skipWs_cons (by decide)]
          have hmems : parseMembers f (renderFields (kv :: fs) ++ '\x7d' :: rest) =
              some (kv :: fs, rest) :=
            ihf (kv :: fs) rest (by simp) (by
              simp [numFreeFields, hnfe.1, hnfe.2]) hce
          split
          · rename_i r2 heq
            rw [List.cons.injEq] at heq
            exact absurd heq.1 (by decide)
          · rw [← hm, hmems]
            rfl
    refine ⟨hval, ?_, ?_⟩
    · intro es rest hne hnf hc
      cases es with
      | nil => exact absurd rfl hne
      | cons e es =>
        have hnfe : numFree e = true ∧ numFreeElems es = true := by
          simpa [numFreeElems, Bool.and_eq_true] using hnf
        have hcj : jcost e ≤ f := by simp [jcostElems] at hc; omega
        cases es with
        | nil =>
          show parseElems (f + 1) (render e ++ ']' :: rest) = _
          simp only [parseElems, ihv e (']' :: rest) hnfe.1 hcj, some_bind]
          rfl
        | cons e2 es2 =>
          have hces : jcostElems (e2 :: es2) ≤ f := by
            simp [jcostElems] at hc ⊢; omega
          rw [renderElems_cons_ne e (e2 :: es2) (by simp), List.append_assoc,
            List.cons_append]
          simp only [parseElems, ihv e _ hnfe.1 hcj, some_bind]
          rw [show skipWs (',' :: (renderElems (e2 :: es2) ++ ']' :: rest)) =
            ',' :: (renderElems (e2 :: es2) ++ ']' :: rest) from skipWs_cons (by decide) _]
          simp only [ihe (e2 :: es2) rest (by simp) hnfe.2 hces, some_bind]
    · intro fs rest hne hnf hc
      cases fs with
      | nil => exact absurd rfl hne
      | cons kv fs =>
        obtain ⟨k, v⟩ := kv
        have hnfe : numFree v = true ∧ numFreeFields fs = true := by
          simpa [numFreeFields, Bool.and_eq_true] using hnf
        have hcv : jcost v ≤ f := by simp [jcostFields] at hc; omega
        cases fs with
        | nil =>
          show parseMembers (f + 1)
            ((renderString k ++ ':' :: render v) ++ '\x7d' :: rest) = _
          rw [show (renderString k ++ ':' :: render v) ++ '\x7d' :: rest =
            '"' :: (escapeList k.data ++ '"' ::
              (':' :: (render v ++ '\x7d' :: rest))) from by
            simp [renderString, List.append_assoc]]
          simp only [parseMembers]
          rw [skipWs_cons (by decide)]
          simp only [parseStrBody_escapeList, some_bind]
          rw [skipWs_cons (by decide)]
          simp only [ihv v _ hnfe.1 hcv, some_bind]
          rw [skipWs_cons (by decide)]
          simp [mk_data]
        | cons f2 fs2 =>
          have hcfs : jcostFields (f2 :: fs2) ≤ f := by
            simp [jcostFields] at hc ⊢; omega
          show parseMembers (f + 1)
            ((renderString k ++ ':' :: render v ++
              ',' :: renderFields (f2 :: fs2)) ++ '\x7d' :: rest) = _
          rw [show (renderString k ++ ':' :: render v ++
              ',' :: renderFields (f2 :: fs2)) ++ '\x7d' :: rest =
            '"' :: (escapeList k.data ++ '"' :: (':' :: (render v ++
              ',' :: (renderFields (f2 :: fs2) ++ '\x7d' :: rest)))) from by
            simp [renderString, List.append_assoc]]
          simp only [parseMembers]
          rw [skipWs_cons (by decide)]
          simp only [parseStrBody_escapeList, some_bind]
          rw [skipWs_cons (by decide)]
          simp only [ihv v _ hnfe.1 hcv, some_bind]
          rw [skipWs_cons (by decide)]
          simp only [ihf (f2 :: fs2) rest (by simp) hnfe.2 hcfs, some_bind]

theorem jcostElems_cons (e : Json) (es : List Json) :
    jcostElems (e :: es) = jcost e + 1 + jcostElems es := rfl

theorem jcostFields_cons (kv : String × Json) (fs : List (String × Json)) :
    jcostFields (kv :: fs) = jcost kv.2 + 1 + jcostFields fs := rfl

mutual

theorem render_cost (j : Json) (h : numFree j = true) :
    jcost j ≤ (render j).length := by
  cases j with
  | null => simp [jcost, render]
  | bool b => cases b <;> simp [jcost, render]
  | num v f => simp [numFree] at h
  | str s => simp [jcost, render, renderString]
  | arr es =>
    cases es with
    | nil => simp [jcost, jcostElems, render, renderElems]
    | cons e es2 =>
      have he := render_cost_elems (e :: es2) (by simpa [numFree] using h)
      simp only [jcost, render, List.length_cons, List.length_append,
        List.length_singleton]
      omega
  | obj fs =>
    cases fs with
    | nil => simp [jcost, jcostFields, render, renderFields]
    | cons kv fs2 =>
      have hf := render_cost_fields (kv :: fs2) (by simpa [numFree] using h)
      simp only [jcost, render, List.length_cons, List.length_append,
        List.length_singleton]
      omega

theorem render_cost_elems (es : List Json) (h : numFreeElems es = true) :
    jcostElems es ≤ (renderElems es).length + 1 := by
  cases es with
  | nil => simp [jcostElems, renderElems]
  | cons e es2 =>
    have hh : numFree e = true ∧ numFreeElems es2 = true := by
      simpa [numFreeElems, Bool.and_eq_true] using h
    have hv := render_cost e hh.1
    cases es2 with
    | nil => simp only [jcostElems, renderElems]; omega
    | cons e2 es3 =>
      have ht := render_cost_elems (e2 :: es3) hh.2
      rw [renderElems_cons_ne e (e2 :: es3) (by simp), jcostElems_cons]
      simp only [List.length_append, List.length_cons]
      omega

theorem render_cost_fields (fs : List (String × Json)) (h : numFreeFields fs = true) :
    jcostFields fs ≤ (renderFields fs).length + 1 := by
  cases fs with
  | nil => simp [jcostFields, renderFields]
  | cons kv fs2 =>
    obtain ⟨k, v⟩ := kv
    have hh : numFree v = true ∧ numFreeFields fs2 = true := by
      simpa [numFreeFields, Bool.and_eq_true] using h
    have hv := render_cost v hh.1
    cases fs2 with
    | nil =>
      rw [jcostFields_cons]
      simp only [jcostFields, renderFields, List.length_append, List.length_cons]
      omega
    | cons f2 fs3 =>
      have ht := render_cost_fields (f2 :: fs3) hh.2
      rw [renderFields_cons_ne (k, v) (f2 :: fs3) (by simp), jcostFields_cons]
      simp only [List.length_append, List.length_cons]
      omega

end

theorem numFree_entry (e : ChatEntry) : numFree (ChatEntry.toJson e) = true := by
  obtain ⟨r, c⟩ := e
  cases r <;> rfl

theorem numFreeElems_entries (es : List ChatEntry) :
    numFreeElems (es.map ChatEntry.toJson) = true := by
  induction es with
  | nil => rfl
  | cons e es ih => simp [numFreeElems, numFree_entry, ih]

theorem numFree_chatLog (l : ChatLog) : numFree (ChatLog.toJson l) = true := by
  obtain ⟨es⟩ := l
  simpa [ChatLog.toJson, numFree] using numFreeElems_entries es

theorem parseJson_renderJson (j : Json) (h : numFree j = true) :
    parseJson (renderJson j) = some j := by
  unfold parseJson renderJson
  have hdata : (⟨render j⟩ : String).data = render j := rfl
  rw [hdata]
  have hfuel : jcost j ≤ (render j).length + 1 :=
    le_trans (render_cost j h) (by omega)
  have hp := (parse_render_fuel ((render j).length + 1)).1 j [] h hfuel
  rw [show render j ++ ([] : List Char) = render j from by simp] at hp
  rw [hp]
  rfl


/-- C1: for every conversation built from any finite ordered sequence of
messages with any role and arbitrary content, JSON-encoding it with
`serde_json::to_string` and then decoding the resulting text yields the
same conversation: identical element order, roles, and content (the
equality of `ChatLog` values is equality of the ordered entry list). -/
theorem conversation_encode_decode_roundtrip (log : ChatLog) :
    chatLogFromString (chatLogToString log) = .ok log := by
  unfold chatLogFromString chatLogToString
  rw [parseJson_renderJson _ (numFree_chatLog log)]
  exact decodeChatLog_toJson log

/-- C2: Role and FinishReason are closed enumerations over their fixed
lowercase wire tokens: encoding produces exactly `"system"`, `"user"`,
`"assistant"`, `"stop"`, `"length"`; decoding accepts exactly those tokens,
yielding the corresponding variant, and fails with a decode error
(unrecognized variant) on any other token. -/
theorem role_finish_closed_enums :
    (ChatRole.toJson .System = .str "system" ∧ ChatRole.toJson .User = .str "user" ∧
      ChatRole.toJson .Assistant = .str "assistant" ∧
      FinishReason.toJson .Stop = .str "stop" ∧
      FinishReason.toJson .Length = .str "length") ∧
    (decodeRole (.str "system") = .ok .System ∧ decodeRole (.str "user") = .ok .User ∧
      decodeRole (.str "assistant") = .ok .Assistant ∧
      decodeFinish (.str "stop") = .ok .Stop ∧
      decodeFinish (.str "length") = .ok .Length) ∧
    (∀ s : String, s ≠ "system" → s ≠ "user" → s ≠ "assistant" →
      decodeRole (.str s) = .error (.unknownVariant s)) ∧
    (∀ s : String, s ≠ "stop" → s ≠ "length" →
      decodeFinish (.str s) = .error (.unknownVariant s)) := by
  refine ⟨⟨rfl, rfl, rfl, rfl, rfl⟩, ⟨rfl, rfl, rfl, rfl, rfl⟩, ?_, ?_⟩
  · intro s h1 h2 h3
    simp [decodeRole, roleFromToken, h1, h2, h3]
  · intro s h1 h2
    simp [decodeFinish, finishFromToken, h1, h2]

/-- Witness for C2 at the concrete token `"banana"`. -/
theorem role_finish_closed_enums_witness :
    decodeRole (.str "banana") = .error (.unknownVariant "banana") ∧
    decodeFinish (.str "banana") = .error (.unknownVariant "banana") :=
  ⟨role_finish_closed_enums.2.2.1 "banana" (by decide) (by decide) (by decide),
   role_finish_closed_enums.2.2.2 "banana" (by decide) (by decide)⟩

/-- C3: building a `ChatCompletionRequest` from a chat log through
`From<ChatLog>` is a pure total function that always succeeds with the
fixed default model `"gpt-3.5-turbo"` and the given conversation,
unchanged. -/
theorem request_from_chat_log (log : ChatLog) :
    (ChatCompletionRequest.fromChatLog log).model = "gpt-3.5-turbo" ∧
    (ChatCompletionRequest.fromChatLog log).messages = log :=
  ⟨rfl, rfl⟩

/-- C7: encoding the specific two-message conversation as a completion
request produces exactly the expected JSON text. -/
theorem request_encoding_literal_example :
    requestToString (ChatCompletionRequest.fromChatLog
      ⟨[⟨.System, "You are an assistant that always says \"A\""⟩,
        ⟨.User, "Please say \"A\". Do not say anything else, only \"A\"."⟩]⟩) =
    "\x7b\"model\":\"gpt-3.5-turbo\",\"messages\":[\x7b\"role\":\"system\",\"content\":\"You are an assistant that always says \\\"A\\\"\"\x7d,\x7b\"role\":\"user\",\"content\":\"Please say \\\"A\\\". Do not say anything else, only \\\"A\\\".\"\x7d]\x7d" := by
  rfl

/-- C8: decoding the specific response byte string succeeds with the
expected response value: first choice with role assistant, content `"A"`,
finish reason stop, and usage totals 10/1/11. -/
theorem response_decoding_literal_example :
    responseFromString "\x7b\"id\":\"x\",\"object\":\"chat.completion\",\"created\":1,\"choices\":[\x7b\"index\":0,\"message\":\x7b\"role\":\"assistant\",\"content\":\"A\"\x7d,\"finish_reason\":\"stop\"\x7d],\"usage\":\x7b\"prompt_tokens\":10,\"completion_tokens\":1,\"total_tokens\":11\x7d\x7d"
      = .ok ⟨"x", "chat.completion", 1, [⟨0, ⟨.Assistant, "A"⟩, .Stop⟩], ⟨10, 1, 11⟩⟩ := by
  rfl

/-! ## C5 and C6: the client call -/

/-- C5: if the network exchange cannot complete (the send returns a
transport-layer failure), `complete_chat` returns a Transport error — the
`?` on `send()` propagates it before any response body is decoded. -/
theorem complete_chat_transport_error (client : OpenAI) (send : Transport)
    (chat : ChatLog) (e : TransportError)
    (h : send (requestToString (ChatCompletionRequest.fromChatLog chat)) = .error e) :
    client.complete_chat send chat = .error (.transport e) := by
  simp [OpenAI.complete_chat, h]

/-- Witness for C5: a connection-refused transport oracle. -/
theorem complete_chat_transport_error_witness :
    (OpenAI.mk "key").complete_chat (fun _ => .error .connectionRefused) ⟨[]⟩ =
      .error (.transport .connectionRefused) :=
  complete_chat_transport_error ⟨"key"⟩ _ ⟨[]⟩ .connectionRefused rfl

/-- C6: every failure of `complete_chat` is surfaced through the single
error type of its result, whose value distinguishes a Transport cause from
a Decode cause: every call is a success, a transport error, or a decode
error; the two error causes are distinguishable values; and a body that
fails to decode surfaces exactly as a Decode-caused error. -/
theorem complete_chat_unified_error :
    (∀ (client : OpenAI) (send : Transport) (chat : ChatLog),
      (∃ r, client.complete_chat send chat = .ok r) ∨
      (∃ e, client.complete_chat send chat = .error (.transport e)) ∨
      (∃ d, client.complete_chat send chat = .error (.decode d))) ∧
    (∀ (e : TransportError) (d : DecodeError),
      ApiError.transport e ≠ ApiError.decode d) ∧
    (∀ (client : OpenAI) (send : Transport) (chat : ChatLog) (body : String)
      (d : DecodeError),
      send (requestToString (ChatCompletionRequest.fromChatLog chat)) = .ok body →
      responseFromString body = .error d →
      client.complete_chat send chat = .error (.decode d)) := by
  refine ⟨?_, ?_, ?_⟩
  · intro client send chat
    unfold OpenAI.complete_chat
    cases hs : send (requestToString (ChatCompletionRequest.fromChatLog chat)) with
    | error e => exact Or.inr (Or.inl ⟨e, by simp [hs]⟩)
    | ok body =>
      cases hd : responseFromString body with
      | error d => exact Or.inr (Or.inr ⟨d, by simp [hs, hd]⟩)
      | ok r => exact Or.inl ⟨r, by simp [hs, hd]⟩
  · intro e d h
    cases h
  · intro client send chat body d hs hd
    simp [OpenAI.complete_chat, hs, hd]

/-- Witness for C6: a reply body that is not valid JSON comes back as a
Decode-caused error. -/
theorem complete_chat_unified_error_witness :
    (OpenAI.mk "key").complete_chat (fun _ => .ok "oops") ⟨[]⟩ =
      .error (.decode .parseFailed) :=
  complete_chat_unified_error.2.2 ⟨"key"⟩ _ ⟨[]⟩ "oops" .parseFailed rfl rfl

/-! ## C9: unknown extra fields are ignored -/

theorem entryFields_skip_unknown (k : String) (v : Json)
    (pre post : List (String × Json)) (hk1 : k ≠ "role") (hk2 : k ≠ "content") :
    ∀ r? c?, entryFields (pre ++ (k, v) :: post) r? c? = entryFields (pre ++ post) r? c? := by
  induction pre with
  | nil =>
    intro r? c?
    simp [entryFields, hk1, hk2]
  | cons kv' pre ih =>
    intro r? c?
    obtain ⟨k', v'⟩ := kv'
    simp only [List.cons_append, entryFields]
    by_cases h1 : k' = "role"
    · simp only [if_pos h1]
      cases r? with
      | some _ => rfl
      | none =>
        cases hrv : decodeRole v' with
        | error e => simp [hrv, error_bind]
        | ok r => simp [hrv, ok_bind, ih]
    · simp only [if_neg h1]
      by_cases h2 : k' = "content"
      · simp only [if_pos h2]
        cases c? with
        | some _ => rfl
        | none =>
          cases hrv : decodeString v' with
          | error e => simp [hrv, error_bind]
          | ok c => simp [hrv, ok_bind, ih]
      · simp only [if_neg h2]
        exact ih r? c?

theorem usageFields_skip_unknown (k : String) (v : Json)
    (pre post : List (String × Json)) (hk1 : k ≠ "prompt_tokens") (hk2 : k ≠ "completion_tokens") (hk3 : k ≠ "total_tokens") :
    ∀ a0? a1? a2?, usageFields (pre ++ (k, v) :: post) a0? a1? a2? = usageFields (pre ++ post) a0? a1? a2? := by
  induction pre with
  | nil =>
    intro a0? a1? a2?
    simp [usageFields, hk1, hk2, hk3]
  | cons kv' pre ih =>
    intro a0? a1? a2?
    obtain ⟨k', v'⟩ := kv'
    simp only [List.cons_append, usageFields]
    by_cases h1 : k' = "prompt_tokens"
    · simp only [if_pos h1]
      cases a0? with
      | some _ => rfl
      | none =>
        cases hrv : decodeUsize v' with
        | error e => simp [hrv, error_bind]
        | ok x => simp [hrv, ok_bind, ih]
    · simp only [if_neg h1]
      by_cases h2 : k' = "completion_tokens"
      · simp only [if_pos h2]
        cases a1? with
        | some _ => rfl
        | none =>
          cases hrv : decodeUsize v' with
          | error e => simp [hrv, error_bind]
          | ok x => simp [hrv, ok_bind, ih]
      · simp only [if_neg h2]
        by_cases h3 : k' = "total_tokens"
        · simp only [if_pos h3]
          cases a2? with
          | some _ => rfl
          | none =>
            cases hrv : decodeUsize v' with
            | error e => simp [hrv, error_bind]
            | ok x => simp [hrv, ok_bind, ih]
        · simp only [if_neg h3]
          exact ih a0? a1? a2?

theorem choiceFields_skip_unknown (k : String) (v : Json)
    (pre post : List (String × Json)) (hk1 : k ≠ "index") (hk2 : k ≠ "message") (hk3 : k ≠ "finish_reason") :
    ∀ a0? a1? a2?, choiceFields (pre ++ (k, v) :: post) a0? a1? a2? = choiceFields (pre ++ post) a0? a1? a2? := by
  induction pre with
  | nil =>
    intro a0? a1? a2?
    simp [choiceFields, hk1, hk2, hk3]
  | cons kv' pre ih =>
    intro a0? a1? a2?
    obtain ⟨k', v'⟩ := kv'
    simp only [List.cons_append, choiceFields]
    by_cases h1 : k' = "index"
    · simp only [if_pos h1]
      cases a0? with
      | some _ => rfl
      | none =>
        cases hrv : decodeUsize v' with
        | error e => simp [hrv, error_bind]
        | ok x => simp [hrv, ok_bind, ih]
    · simp only [if_neg h1]
      by_cases h2 : k' = "message"
      · simp only [if_pos h2]
        cases a1? with
        | some _ => rfl
        | none =>
          cases hrv : decodeEntry v' with
          | error e => simp [hrv, error_bind]
          | ok x => simp [hrv, ok_bind, ih]
      · simp only [if_neg h2]
        by_cases h3 : k' = "finish_reason"
        · simp only [if_pos h3]
          cases a2? with
          | some _ => rfl
          | none =>
            cases hrv : decodeFinish v' with
            | error e => simp [hrv, error_bind]
            | ok x => simp [hrv, ok_bind, ih]
        · simp only [if_neg h3]
          exact ih a0? a1? a2?

theorem responseFields_skip_unknown (k : String) (v : Json)
    (pre post : List (String × Json)) (hk1 : k ≠ "id") (hk2 : k ≠ "object") (hk3 : k ≠ "created") (hk4 : k ≠ "choices") (hk5 : k ≠ "usage") :
    ∀ a0? a1? a2? a3? a4?, responseFields (pre ++ (k, v) :: post) a0? a1? a2? a3? a4? = responseFields (pre ++ post) a0? a1? a2? a3? a4? := by
  induction pre with
  | nil =>
    intro a0? a1? a2? a3? a4?
    simp [responseFields, hk1, hk2, hk3, hk4, hk5]
  | cons kv' pre ih =>
    intro a0? a1? a2? a3? a4?
    obtain ⟨k', v'⟩ := kv'
    simp only [List.cons_append, responseFields]
    by_cases h1 : k' = "id"
    · simp only [if_pos h1]
      cases a0? with
      | some _ => rfl
      | none =>
        cases hrv : decodeString v' with
        | error e => simp [hrv, error_bind]
        | ok x => simp [hrv, ok_bind, ih]
    · simp only [if_neg h1]
      by_cases h2 : k' = "object"
      · simp only [if_pos h2]
        cases a1? with
        | some _ => rfl
        | none =>
          cases hrv : decodeString v' with
          | error e => simp [hrv, error_bind]
          | ok x => simp [hrv, ok_bind, ih]
      · simp only [if_neg h2]
        by_cases h3 : k' = "created"
        · simp only [if_pos h3]
          cases a2? with
          | some _ => rfl
          | none =>
            cases hrv : decodeUsize v' with
            | error e => simp [hrv, error_bind]
            | ok x => simp [hrv, ok_bind, ih]
        · simp only [if_neg h3]
          by_cases h4 : k' = "choices"
          · simp only [if_pos h4]
            cases a3? with
            | some _ => rfl
            | none =>
              cases hrv : decodeChoices v' with
              | error e => simp [hrv, error_bind]
              | ok x => simp [hrv, ok_bind, ih]
          · simp only [if_neg h4]
            by_cases h5 : k' = "usage"
            · simp only [if_pos h5]
              cases a4? with
              | some _ => rfl
              | none =>
                cases hrv : decodeUsage v' with
                | error e => simp [hrv, error_bind]
                | ok x => simp [hrv, ok_bind, ih]
            · simp only [if_neg h5]
              exact ih a0? a1? a2? a3? a4?

/-- C9: decoding tolerates unknown extra fields at every nesting level:
inserting an entry with an unrecognized key anywhere in the response,
choice, message, or usage object leaves the decode result unchanged, and a
payload with every required field plus extras decodes successfully to the
value determined by the required fields alone. -/
theorem unknown_fields_ignored :
    (∀ (k : String) (v : Json) (pre post : List (String × Json)),
      k ≠ "role" → k ≠ "content" → ∀ r? c?,
      entryFields (pre ++ (k, v) :: post) r? c? = entryFields (pre ++ post) r? c?) ∧
    (∀ (k : String) (v : Json) (pre post : List (String × Json)),
      k ≠ "prompt_tokens" → k ≠ "completion_tokens" → k ≠ "total_tokens" →
      ∀ a? b? c?,
      usageFields (pre ++ (k, v) :: post) a? b? c? =
        usageFields (pre ++ post) a? b? c?) ∧
    (∀ (k : String) (v : Json) (pre post : List (String × Json)),
      k ≠ "index" → k ≠ "message" → k ≠ "finish_reason" → ∀ a? b? c?,
      choiceFields (pre ++ (k, v) :: post) a? b? c? =
        choiceFields (pre ++ post) a? b? c?) ∧
    (∀ (k : String) (v : Json) (pre post : List (String × Json)),
      k ≠ "id" → k ≠ "object" → k ≠ "created" → k ≠ "choices" → k ≠ "usage" →
      ∀ a? b? c? d? e?,
      responseFields (pre ++ (k, v) :: post) a? b? c? d? e? =
        responseFields (pre ++ post) a? b? c? d? e?) ∧
    decodeResponse (.obj [("x1", .null), ("id", .str "x"),
      ("object", .str "chat.completion"), ("created", .num 1 false),
      ("choices", .arr [.obj [("index", .num 0 false), ("x2", .bool true),
        ("message", .obj [("role", .str "assistant"), ("content", .str "A"),
          ("x3", .str "junk")]),
        ("finish_reason", .str "stop")]]),
      ("usage", .obj [("prompt_tokens", .num 10 false),
        ("completion_tokens", .num 1 false), ("total_tokens", .num 11 false),
        ("x4", .num 0 false)])]) =
      .ok ⟨"x", "chat.completion", 1, [⟨0, ⟨.Assistant, "A"⟩, .Stop⟩], ⟨10, 1, 11⟩⟩ :=
  ⟨fun k v pre post h1 h2 => entryFields_skip_unknown k v pre post h1 h2,
   fun k v pre post h1 h2 h3 => usageFields_skip_unknown k v pre post h1 h2 h3,
   fun k v pre post h1 h2 h3 => choiceFields_skip_unknown k v pre post h1 h2 h3,
   fun k v pre post h1 h2 h3 h4 h5 =>
     responseFields_skip_unknown k v pre post h1 h2 h3 h4 h5,
   by rfl⟩

/-- Witness for C9 at concrete unknown keys in each of the four objects. -/
theorem unknown_fields_ignored_witness :
    entryFields ([("role", .str "user")] ++ ("extra", .null) ::
        [("content", .str "hi")]) none none =
      entryFields ([("role", .str "user")] ++ [("content", .str "hi")]) none none ∧
    usageFields ([] ++ ("extra", .null) :: [("prompt_tokens", .num 1 false),
        ("completion_tokens", .num 2 false), ("total_tokens", .num 3 false)])
        none none none =
      usageFields ([] ++ [("prompt_tokens", .num 1 false),
        ("completion_tokens", .num 2 false), ("total_tokens", .num 3 false)])
        none none none ∧
    choiceFields ([("index", .num 0 false)] ++ ("extra", .bool true) :: [])
        none none none =
      choiceFields ([("index", .num 0 false)] ++ []) none none none ∧
    responseFields ([("id", .str "x")] ++ ("extra", .str "y") :: []) none
        none none none none =
      responseFields ([("id", .str "x")] ++ []) none none none none none :=
  ⟨unknown_fields_ignored.1 "extra" .null _ _ (by decide)
     (ne_of_beq_false rfl) none none,
   unknown_fields_ignored.2.1 "extra" .null _ _ (by decide)
     (ne_of_beq_false rfl) (by decide) none none none,
   unknown_fields_ignored.2.2.1 "extra" (.bool true) _ _ (by decide)
     (ne_of_beq_false rfl) (by decide) none none none,
   unknown_fields_ignored.2.2.2.1 "extra" (.str "y") _ _ (by decide)
     (ne_of_beq_false rfl) (by decide) (ne_of_beq_false rfl)
     (by decide) none none none none none⟩

/-! ## C10: integer fields are unsigned and integral -/

/-- C10: every declared integer field of the response decodes through the
`usize` visitor, which rejects a negative or non-integral JSON number with
a decode error; a full response whose `created`, choice `index`, or any
usage counter holds such a number fails to decode. -/
theorem unsigned_integer_fields :
    (∀ (v : Int) (f : Bool), v < 0 ∨ f = true →
      isOkE (decodeUsize (.num v f)) = false) ∧
    isOkE (decodeResponse (.obj [("id", .str "x"),
      ("object", .str "chat.completion"), ("created", .num (-1) false),
      ("choices", .arr []), ("usage", .obj [("prompt_tokens", .num 10 false),
        ("completion_tokens", .num 1 false),
        ("total_tokens", .num 11 false)])])) = false ∧
    isOkE (decodeResponse (.obj [("id", .str "x"),
      ("object", .str "chat.completion"), ("created", .num 1 false),
      ("choices", .arr [.obj [("index", .num 0 true),
        ("message", .obj [("role", .str "assistant"), ("content", .str "A")]),
        ("finish_reason", .str "stop")]]),
      ("usage", .obj [("prompt_tokens", .num 10 false),
        ("completion_tokens", .num 1 false),
        ("total_tokens", .num 11 false)])])) = false ∧
    isOkE (decodeResponse (.obj [("id", .str "x"),
      ("object", .str "chat.completion"), ("created", .num 1 false),
      ("choices", .arr []), ("usage", .obj [("prompt_tokens", .num (-2) false),
        ("completion_tokens", .num 1 false),
        ("total_tokens", .num 11 false)])])) = false ∧
    isOkE (decodeResponse (.obj [("id", .str "x"),
      ("object", .str "chat.completion"), ("created", .num 1 false),
      ("choices", .arr []), ("usage", .obj [("prompt_tokens", .num 10 false),
        ("completion_tokens", .num 2 true),
        ("total_tokens", .num 11 false)])])) = false ∧
    isOkE (decodeResponse (.obj [("id", .str "x"),
      ("object", .str "chat.completion"), ("created", .num 1 false),
      ("choices", .arr []), ("usage", .obj [("prompt_tokens", .num 10 false),
        ("completion_tokens", .num 1 false),
        ("total_tokens", .num (-3) false)])])) = false := by
  refine ⟨?_, rfl, rfl, rfl, rfl, rfl⟩
  intro v f h
  cases f with
  | true => rfl
  | false =>
    have hv : v < 0 := h.resolve_right (by simp)
    simp [decodeUsize, hv, isOkE]

/-- Witness for C10 at `-1` (negative) and at a float flag. -/
theorem unsigned_integer_fields_witness :
    isOkE (decodeUsize (.num (-1) false)) = false ∧
    isOkE (decodeUsize (.num 1 true)) = false :=
  ⟨unsigned_integer_fields.1 (-1) false (Or.inl (by decide)),
   unsigned_integer_fields.1 1 true (Or.inr rfl)⟩


/-! ## C4: when response decoding fails -/

theorem fieldOkOnce_cons_hit (k' k : String) (v : Json) (fs : List (String × Json))
    (p : Json → Bool) (h : (k' == k) = true) :
    fieldOkOnce ((k', v) :: fs) k p = (p v && keyAbsent fs k) := by
  unfold fieldOkOnce keyAbsent
  simp only [List.filter_cons, h, if_pos]
  cases (fs.filter (fun kv => kv.1 == k)) with
  | nil => simp
  | cons a l => simp

theorem fieldOkOnce_cons_miss (k' k : String) (v : Json) (fs : List (String × Json))
    (p : Json → Bool) (h : (k' == k) = false) :
    fieldOkOnce ((k', v) :: fs) k p = fieldOkOnce fs k p := by
  unfold fieldOkOnce
  simp [List.filter_cons, h]

theorem keyAbsent_cons (k' k : String) (v : Json) (fs : List (String × Json)) :
    keyAbsent ((k', v) :: fs) k = (!(k' == k) && keyAbsent fs k) := by
  unfold keyAbsent
  by_cases h : (k' == k) = true
  · simp [List.filter_cons, h]
  · simp only [Bool.not_eq_true] at h
    simp [List.filter_cons, h]

theorem isOkE_decodeString (j : Json) : isOkE (decodeString j) = isStrVal j := by
  cases j <;> rfl

theorem isOkE_decodeUsize (j : Json) : isOkE (decodeUsize j) = isUIntVal j := by
  cases j with
  | num v f =>
    cases f with
    | true => rfl
    | false =>
      by_cases hv : v < 0
      · have h2 : ¬(0 ≤ v) := by omega
        simp [decodeUsize, isUIntVal, isOkE, hv, h2]
      · have h2 : 0 ≤ v := by omega
        simp [decodeUsize, isUIntVal, isOkE, hv, h2]
  | null => rfl
  | bool b => rfl
  | str s => rfl
  | arr es => rfl
  | obj fs => rfl

theorem isOkE_roleFromToken (s : String) : isOkE (roleFromToken s) = roleTok s := by
  by_cases h1 : s = "system"
  · simp [roleFromToken, roleTok, h1, isOkE]
  · by_cases h2 : s = "user"
    · simp [roleFromToken, roleTok, h1, h2, isOkE]
    · by_cases h3 : s = "assistant"
      · simp [roleFromToken, roleTok, h1, h2, h3, isOkE]
      · simp [roleFromToken, roleTok, h1, h2, h3, isOkE]

theorem isOkE_decodeRole (j : Json) : isOkE (decodeRole j) = isRoleTok j := by
  cases j with
  | str s => exact isOkE_roleFromToken s
  | obj fs =>
    cases fs with
    | nil => rfl
    | cons kv rest =>
      cases rest with
      | cons kv2 rest2 =>
        obtain ⟨s, v⟩ := kv
        obtain ⟨s2, v2⟩ := kv2
        cases v <;> rfl
      | nil =>
        obtain ⟨s, v⟩ := kv
        cases hr : roleFromToken s with
        | error e =>
          have hf : roleTok s = false := by rw [← isOkE_roleFromToken, hr]; rfl
          cases v <;> simp [decodeRole, isRoleTok, hr, error_bind, isOkE, hf]
        | ok r =>
          have ht : roleTok s = true := by rw [← isOkE_roleFromToken, hr]; rfl
          cases v <;> simp [decodeRole, isRoleTok, hr, ok_bind, isOkE, ht]
  | null => rfl
  | bool b => rfl
  | num v f => rfl
  | arr es => rfl

theorem isOkE_finishFromToken (s : String) : isOkE (finishFromToken s) = finishTok s := by
  by_cases h1 : s = "stop"
  · simp [finishFromToken, finishTok, h1, isOkE]
  · by_cases h2 : s = "length"
    · simp [finishFromToken, finishTok, h1, h2, isOkE]
    · simp [finishFromToken, finishTok, h1, h2, isOkE]

theorem isOkE_decodeFinish (j : Json) : isOkE (decodeFinish j) = isFinishTok j := by
  cases j with
  | str s => exact isOkE_finishFromToken s
  | obj fs =>
    cases fs with
    | nil => rfl
    | cons kv rest =>
      cases rest with
      | cons kv2 rest2 =>
        obtain ⟨s, v⟩ := kv
        obtain ⟨s2, v2⟩ := kv2
        cases v <;> rfl
      | nil =>
        obtain ⟨s, v⟩ := kv
        cases hr : finishFromToken s with
        | error e =>
          have hf : finishTok s = false := by rw [← isOkE_finishFromToken, hr]; rfl
          cases v <;> simp [decodeFinish, isFinishTok, hr, error_bind, isOkE, hf]
        | ok f =>
          have ht : finishTok s = true := by rw [← isOkE_finishFromToken, hr]; rfl
          cases v <;> simp [decodeFinish, isFinishTok, hr, ok_bind, isOkE, ht]
  | null => rfl
  | bool b => rfl
  | num v f => rfl
  | arr es => rfl


theorem fieldState_cons_hit {α : Type} (k' k : String) (v : Json)
    (fs : List (String × Json)) (p : Json → Bool) (h : (k' == k) = true)
    (a : Option α) :
    fieldState ((k', v) :: fs) k p a =
      (match a with
       | some _ => false
       | none => p v && keyAbsent fs k) := by
  cases a with
  | some x => simp [fieldState, keyAbsent_cons, h]
  | none => simp [fieldState, fieldOkOnce_cons_hit _ _ _ _ _ h]

theorem fieldState_cons_ne {α : Type} (k' k : String) (v : Json)
    (fs : List (String × Json)) (p : Json → Bool) (h : (k' == k) = false)
    (a : Option α) :
    fieldState ((k', v) :: fs) k p a = fieldState fs k p a := by
  cases a with
  | some x => simp [fieldState, keyAbsent_cons, h]
  | none => simp [fieldState, fieldOkOnce_cons_miss _ _ _ _ _ h]

theorem usageFields_state (fs : List (String × Json)) :
    ∀ a0? a1? a2?, isOkE (usageFields fs a0? a1? a2?) =
      (fieldState fs "prompt_tokens" isUIntVal a0? && fieldState fs "completion_tokens" isUIntVal a1? && fieldState fs "total_tokens" isUIntVal a2?) := by
  induction fs with
  | nil =>
    intro a0? a1? a2?
    cases a0? <;> cases a1? <;> cases a2? <;> rfl
  | cons kv fs ih =>
    intro a0? a1? a2?
    obtain ⟨k, v⟩ := kv
    simp only [usageFields]
    by_cases h1 : k = "prompt_tokens"
    · have hbeq : (k == "prompt_tokens") = true := by simp [h1]
      have hne2 : (k == "completion_tokens") = false := by rw [h1]; rfl
      have hne3 : (k == "total_tokens") = false := by rw [h1]; rfl
      simp only [if_pos h1]
      cases a0? with
      | some _ =>
        simp [isOkE, fieldState_cons_hit _ _ _ _ _ hbeq]
      | none =>
        cases hrv : decodeUsize v with
        | error e =>
          have hpv : isUIntVal v = false := by rw [← isOkE_decodeUsize, hrv]; rfl
          simp [error_bind, isOkE, fieldState_cons_hit _ _ _ _ _ hbeq, hpv]
        | ok x =>
          have hpv : isUIntVal v = true := by rw [← isOkE_decodeUsize, hrv]; rfl
          simp only [hrv, ok_bind, ih]
          simp only [fieldState_cons_hit _ _ _ _ _ hbeq, fieldState_cons_ne _ _ _ _ _ hne2, fieldState_cons_ne _ _ _ _ _ hne3]
          simp [fieldState, hpv]
    · simp only [if_neg h1]
      by_cases h2 : k = "completion_tokens"
      · have hbeq : (k == "completion_tokens") = true := by simp [h2]
        have hne1 : (k == "prompt_tokens") = false := by rw [h2]; rfl
        have hne3 : (k == "total_tokens") = false := by rw [h2]; rfl
        simp only [if_pos h2]
        cases a1? with
        | some _ =>
          simp [isOkE, fieldState_cons_hit _ _ _ _ _ hbeq]
        | none =>
          cases hrv : decodeUsize v with
          | error e =>
            have hpv : isUIntVal v = false := by rw [← isOkE_decodeUsize, hrv]; rfl
            simp [error_bind, isOkE, fieldState_cons_hit _ _ _ _ _ hbeq, hpv]
          | ok x =>
            have hpv : isUIntVal v = true := by rw [← isOkE_decodeUsize, hrv]; rfl
            simp only [hrv, ok_bind, ih]
            simp only [fieldState_cons_hit _ _ _ _ _ hbeq, fieldState_cons_ne _ _ _ _ _ hne1, fieldState_cons_ne _ _ _ _ _ hne3]
            simp [fieldState, hpv]
      · simp only [if_neg h2]
        by_cases h3 : k = "total_tokens"
        · have hbeq : (k == "total_tokens") = true := by simp [h3]
          have hne1 : (k == "prompt_tokens") = false := by rw [h3]; rfl
          have hne2 : (k == "completion_tokens") = false := by rw [h3]; rfl
          simp only [if_pos h3]
          cases a2? with
          | some _ =>
            simp [isOkE, fieldState_cons_hit _ _ _ _ _ hbeq]
          | none =>
            cases hrv : decodeUsize v with
            | error e =>
              have hpv : isUIntVal v = false := by rw [← isOkE_decodeUsize, hrv]; rfl
              simp [error_bind, isOkE, fieldState_cons_hit _ _ _ _ _ hbeq, hpv]
            | ok x =>
              have hpv : isUIntVal v = true := by rw [← isOkE_decodeUsize, hrv]; rfl
              simp only [hrv, ok_bind, ih]
              simp only [fieldState_cons_hit _ _ _ _ _ hbeq, fieldState_cons_ne _ _ _ _ _ hne1, fieldState_cons_ne _ _ _ _ _ hne2]
              simp [fieldState, hpv]
        · simp only [if_neg h3]
          have hne1 : (k == "prompt_tokens") = false := by simp [h1]
          have hne2 : (k == "completion_tokens") = false := by simp [h2]
          have hne3 : (k == "total_tokens") = false := by simp [h3]
          rw [ih]
          simp only [fieldState_cons_ne _ _ _ _ _ hne1, fieldState_cons_ne _ _ _ _ _ hne2, fieldState_cons_ne _ _ _ _ _ hne3]

theorem isOkE_decodeUsage (j : Json) : isOkE (decodeUsage j) = usageShape j := by
  cases j with
  | obj fs =>
    show isOkE (usageFields fs none none none) = _
    rw [usageFields_state fs none none none]
    rfl
  | null => rfl
  | bool b => rfl
  | num v f => rfl
  | str s => rfl
  | arr es =>
    cases es with
    | nil => rfl
    | cons a t1 =>
      cases t1 with
      | nil => rfl
      | cons b t2 =>
        cases t2 with
        | nil => rfl
        | cons c t3 =>
          cases t3 with
          | cons z tz => rfl
          | nil =>
            cases h1 : decodeUsize a with
            | error err1 =>
              have hv1 : isUIntVal a = false := by rw [← isOkE_decodeUsize, h1]; rfl
              simp [decodeUsage, usageShape, error_bind, ok_bind, isOkE, h1, hv1]
            | ok x1 =>
              have hv1 : isUIntVal a = true := by rw [← isOkE_decodeUsize, h1]; rfl
              cases h2 : decodeUsize b with
              | error err2 =>
                have hv2 : isUIntVal b = false := by rw [← isOkE_decodeUsize, h2]; rfl
                simp [decodeUsage, usageShape, error_bind, ok_bind, isOkE, h1, h2, hv1, hv2]
              | ok x2 =>
                have hv2 : isUIntVal b = true := by rw [← isOkE_decodeUsize, h2]; rfl
                cases h3 : decodeUsize c with
                | error err3 =>
                  have hv3 : isUIntVal c = false := by rw [← isOkE_decodeUsize, h3]; rfl
                  simp [decodeUsage, usageShape, error_bind, ok_bind, isOkE, h1, h2, h3, hv1, hv2, hv3]
                | ok x3 =>
                  have hv3 : isUIntVal c = true := by rw [← isOkE_decodeUsize, h3]; rfl
                  simp [decodeUsage, usageShape, ok_bind, isOkE, h1, h2, h3, hv1, hv2, hv3]

theorem entryFields_state (fs : List (String × Json)) :
    ∀ a0? a1?, isOkE (entryFields fs a0? a1?) =
      (fieldState fs "role" isRoleTok a0? && fieldState fs "content" isStrVal a1?) := by
  induction fs with
  | nil =>
    intro a0? a1?
    cases a0? <;> cases a1? <;> rfl
  | cons kv fs ih =>
    intro a0? a1?
    obtain ⟨k, v⟩ := kv
    simp only [entryFields]
    by_cases h1 : k = "role"
    · have hbeq : (k == "role") = true := by simp [h1]
      have hne2 : (k == "content") = false := by rw [h1]; rfl
      simp only [if_pos h1]
      cases a0? with
      | some _ =>
        simp [isOkE, fieldState_cons_hit _ _ _ _ _ hbeq]
      | none =>
        cases hrv : decodeRole v with
        | error e =>
          have hpv : isRoleTok v = false := by rw [← isOkE_decodeRole, hrv]; rfl
          simp [error_bind, isOkE, fieldState_cons_hit _ _ _ _ _ hbeq, hpv]
        | ok x =>
          have hpv : isRoleTok v = true := by rw [← isOkE_decodeRole, hrv]; rfl
          simp only [hrv, ok_bind, ih]
          simp only [fieldState_cons_hit _ _ _ _ _ hbeq, fieldState_cons_ne _ _ _ _ _ hne2]
          simp [fieldState, hpv]
    · simp only [if_neg h1]
      by_cases h2 : k = "content"
      · have hbeq : (k == "content") = true := by simp [h2]
        have hne1 : (k == "role") = false := by rw [h2]; rfl
        simp only [if_pos h2]
        cases a1? with
        | some _ =>
          simp [isOkE, fieldState_cons_hit _ _ _ _ _ hbeq]
        | none =>
          cases hrv : decodeString v with
          | error e =>
            have hpv : isStrVal v = false := by rw [← isOkE_decodeString, hrv]; rfl
            simp [error_bind, isOkE, fieldState_cons_hit _ _ _ _ _ hbeq, hpv]
          | ok x =>
            have hpv : isStrVal v = true := by rw [← isOkE_decodeString, hrv]; rfl
            simp only [hrv, ok_bind, ih]
            simp only [fieldState_cons_hit _ _ _ _ _ hbeq, fieldState_cons_ne _ _ _ _ _ hne1]
            simp [fieldState, hpv]
      · simp only [if_neg h2]
        have hne1 : (k == "role") = false := by simp [h1]
        have hne2 : (k == "content") = false := by simp [h2]
        rw [ih]
        simp only [fieldState_cons_ne _ _ _ _ _ hne1, fieldState_cons_ne _ _ _ _ _ hne2]

theorem isOkE_decodeEntry (j : Json) : isOkE (decodeEntry j) = entryShape j := by
  cases j with
  | obj fs =>
    show isOkE (entryFields fs none none) = _
    rw [entryFields_state fs none none]
    rfl
  | null => rfl
  | bool b => rfl
  | num v f => rfl
  | str s => rfl
  | arr es =>
    cases es with
    | nil => rfl
    | cons a t1 =>
      cases t1 with
      | nil => rfl
      | cons b t2 =>
        cases t2 with
        | cons z tz => rfl
        | nil =>
          cases h1 : decodeRole a with
          | error err1 =>
            have hv1 : isRoleTok a = false := by rw [← isOkE_decodeRole, h1]; rfl
            simp [decodeEntry, entryShape, error_bind, ok_bind, isOkE, h1, hv1]
          | ok x1 =>
            have hv1 : isRoleTok a = true := by rw [← isOkE_decodeRole, h1]; rfl
            cases h2 : decodeString b with
            | error err2 =>
              have hv2 : isStrVal b = false := by rw [← isOkE_decodeString, h2]; rfl
              simp [decodeEntry, entryShape, error_bind, ok_bind, isOkE, h1, h2, hv1, hv2]
            | ok x2 =>
              have hv2 : isStrVal b = true := by rw [← isOkE_decodeString, h2]; rfl
              simp [decodeEntry, entryShape, ok_bind, isOkE, h1, h2, hv1, hv2]

theorem choiceFields_state (fs : List (String × Json)) :
    ∀ a0? a1? a2?, isOkE (choiceFields fs a0? a1? a2?) =
      (fieldState fs "index" isUIntVal a0? && fieldState fs "message" entryShape a1? && fieldState fs "finish_reason" isFinishTok a2?) := by
  induction fs with
  | nil =>
    intro a0? a1? a2?
    cases a0? <;> cases a1? <;> cases a2? <;> rfl
  | cons kv fs ih =>
    intro a0? a1? a2?
    obtain ⟨k, v⟩ := kv
    simp only [choiceFields]
    by_cases h1 : k = "index"
    · have hbeq : (k == "index") = true := by simp [h1]
      have hne2 : (k == "message") = false := by rw [h1]; rfl
      have hne3 : (k == "finish_reason") = false := by rw [h1]; rfl
      simp only [if_pos h1]
      cases a0? with
      | some _ =>
        simp [isOkE, fieldState_cons_hit _ _ _ _ _ hbeq]
      | none =>
        cases hrv : decodeUsize v with
        | error e =>
          have hpv : isUIntVal v = false := by rw [← isOkE_decodeUsize, hrv]; rfl
          simp [error_bind, isOkE, fieldState_cons_hit _ _ _ _ _ hbeq, hpv]
        | ok x =>
          have hpv : isUIntVal v = true := by rw [← isOkE_decodeUsize, hrv]; rfl
          simp only [hrv, ok_bind, ih]
          simp only [fieldState_cons_hit _ _ _ _ _ hbeq, fieldState_cons_ne _ _ _ _ _ hne2, fieldState_cons_ne _ _ _ _ _ hne3]
          simp [fieldState, hpv]
    · simp only [if_neg h1]
      by_cases h2 : k = "message"
      · have hbeq : (k == "message") = true := by simp [h2]
        have hne1 : (k == "index") = false := by rw [h2]; rfl
        have hne3 : (k == "finish_reason") = false := by rw [h2]; rfl
        simp only [if_pos h2]
        cases a1? with
        | some _ =>
          simp [isOkE, fieldState_cons_hit _ _ _ _ _ hbeq]
        | none =>
          cases hrv : decodeEntry v with
          | error e =>
            have hpv : entryShape v = false := by rw [← isOkE_decodeEntry, hrv]; rfl
            simp [error_bind, isOkE, fieldState_cons_hit _ _ _ _ _ hbeq, hpv]
          | ok x =>
            have hpv : entryShape v = true := by rw [← isOkE_decodeEntry, hrv]; rfl
            simp only [hrv, ok_bind, ih]
            simp only [fieldState_cons_hit _ _ _ _ _ hbeq, fieldState_cons_ne _ _ _ _ _ hne1, fieldState_cons_ne _ _ _ _ _ hne3]
            simp [fieldState, hpv]
      · simp only [if_neg h2]
        by_cases h3 : k = "finish_reason"
        · have hbeq : (k == "finish_reason") = true := by simp [h3]
          have hne1 : (k == "index") = false := by rw [h3]; rfl
          have hne2 : (k == "message") = false := by rw [h3]; rfl
          simp only [if_pos h3]
          cases a2? with
          | some _ =>
            simp [isOkE, fieldState_cons_hit _ _ _ _ _ hbeq]
          | none =>
            cases hrv : decodeFinish v with
            | error e =>
              have hpv : isFinishTok v = false := by rw [← isOkE_decodeFinish, hrv]; rfl
              simp [error_bind, isOkE, fieldState_cons_hit _ _ _ _ _ hbeq, hpv]
            | ok x =>
              have hpv : isFinishTok v = true := by rw [← isOkE_decodeFinish, hrv]; rfl
              simp only [hrv, ok_bind, ih]
              simp only [fieldState_cons_hit _ _ _ _ _ hbeq, fieldState_cons_ne _ _ _ _ _ hne1, fieldState_cons_ne _ _ _ _ _ hne2]
              simp [fieldState, hpv]
        · simp only [if_neg h3]
          have hne1 : (k == "index") = false := by simp [h1]
          have hne2 : (k == "message") = false := by simp [h2]
          have hne3 : (k == "finish_reason") = false := by simp [h3]
          rw [ih]
          simp only [fieldState_cons_ne _ _ _ _ _ hne1, fieldState_cons_ne _ _ _ _ _ hne2, fieldState_cons_ne _ _ _ _ _ hne3]

theorem isOkE_decodeChoice (j : Json) : isOkE (decodeChoice j) = choiceShape j := by
  cases j with
  | obj fs =>
    show isOkE (choiceFields fs none none none) = _
    rw [choiceFields_state fs none none none]
    rfl
  | null => rfl
  | bool b => rfl
  | num v f => rfl
  | str s => rfl
  | arr es =>
    cases es with
    | nil => rfl
    | cons a t1 =>
      cases t1 with
      | nil => rfl
      | cons b t2 =>
        cases t2 with
        | nil => rfl
        | cons c t3 =>
          cases t3 with
          | cons z tz => rfl
          | nil =>
            cases h1 : decodeUsize a with
            | error err1 =>
              have hv1 : isUIntVal a = false := by rw [← isOkE_decodeUsize, h1]; rfl
              simp [decodeChoice, choiceShape, error_bind, ok_bind, isOkE, h1, hv1]
            | ok x1 =>
              have hv1 : isUIntVal a = true := by rw [← isOkE_decodeUsize, h1]; rfl
              cases h2 : decodeEntry b with
              | error err2 =>
                have hv2 : entryShape b = false := by rw [← isOkE_decodeEntry, h2]; rfl
                simp [decodeChoice, choiceShape, error_bind, ok_bind, isOkE, h1, h2, hv1, hv2]
              | ok x2 =>
                have hv2 : entryShape b = true := by rw [← isOkE_decodeEntry, h2]; rfl
                cases h3 : decodeFinish c with
                | error err3 =>
                  have hv3 : isFinishTok c = false := by rw [← isOkE_decodeFinish, h3]; rfl
                  simp [decodeChoice, choiceShape, error_bind, ok_bind, isOkE, h1, h2, h3, hv1, hv2, hv3]
                | ok x3 =>
                  have hv3 : isFinishTok c = true := by rw [← isOkE_decodeFinish, h3]; rfl
                  simp [decodeChoice, choiceShape, ok_bind, isOkE, h1, h2, h3, hv1, hv2, hv3]

theorem isOkE_decodeChoiceList (es : List Json) :
    isOkE (decodeChoiceList es) = es.all choiceShape := by
  induction es with
  | nil => rfl
  | cons j rest ih =>
    simp only [decodeChoiceList, List.all_cons]
    cases hd : decodeChoice j with
    | error e =>
      have hpv : choiceShape j = false := by rw [← isOkE_decodeChoice, hd]; rfl
      simp [error_bind, isOkE, hpv]
    | ok c =>
      have hpv : choiceShape j = true := by rw [← isOkE_decodeChoice, hd]; rfl
      cases hr : decodeChoiceList rest with
      | error e2 =>
        have hl : List.all rest choiceShape = false := by rw [← ih, hr]; rfl
        simp [ok_bind, hr, error_bind, isOkE, hpv, hl]
      | ok cs =>
        have hl : List.all rest choiceShape = true := by rw [← ih, hr]; rfl
        simp [ok_bind, hr, isOkE, hpv, hl]

theorem isOkE_decodeChoices (j : Json) : isOkE (decodeChoices j) = choicesShape j := by
  cases j with
  | arr es =>
    show isOkE (decodeChoiceList es) = _
    rw [isOkE_decodeChoiceList]
    rfl
  | null => rfl
  | bool b => rfl
  | num v f => rfl
  | str s => rfl
  | obj fs => rfl

theorem responseFields_state (fs : List (String × Json)) :
    ∀ a0? a1? a2? a3? a4?, isOkE (responseFields fs a0? a1? a2? a3? a4?) =
      (fieldState fs "id" isStrVal a0? && fieldState fs "object" isStrVal a1? && fieldState fs "created" isUIntVal a2? && fieldState fs "choices" choicesShape a3? && fieldState fs "usage" usageShape a4?) := by
  induction fs with
  | nil =>
    intro a0? a1? a2? a3? a4?
    cases a0? <;> cases a1? <;> cases a2? <;> cases a3? <;> cases a4? <;> rfl
  | cons kv fs ih =>
    intro a0? a1? a2? a3? a4?
    obtain ⟨k, v⟩ := kv
    simp only [responseFields]
    by_cases h1 : k = "id"
    · have hbeq : (k == "id") = true := by simp [h1]
      have hne2 : (k == "object") = false := by rw [h1]; rfl
      have hne3 : (k == "created") = false := by rw [h1]; rfl
      have hne4 : (k == "choices") = false := by rw [h1]; rfl
      have hne5 : (k == "usage") = false := by rw [h1]; rfl
      simp only [if_pos h1]
      cases a0? with
      | some _ =>
        simp [isOkE, fieldState_cons_hit _ _ _ _ _ hbeq]
      | none =>
        cases hrv : decodeString v with
        | error e =>
          have hpv : isStrVal v = false := by rw [← isOkE_decodeString, hrv]; rfl
          simp [error_bind, isOkE, fieldState_cons_hit _ _ _ _ _ hbeq, hpv]
        | ok x =>
          have hpv : isStrVal v = true := by rw [← isOkE_decodeString, hrv]; rfl
          simp only [hrv, ok_bind, ih]
          simp only [fieldState_cons_hit _ _ _ _ _ hbeq, fieldState_cons_ne _ _ _ _ _ hne2, fieldState_cons_ne _ _ _ _ _ hne3, fieldState_cons_ne _ _ _ _ _ hne4, fieldState_cons_ne _ _ _ _ _ hne5]
          simp [fieldState, hpv]
    · simp only [if_neg h1]
      by_cases h2 : k = "object"
      · have hbeq : (k == "object") = true := by simp [h2]
        have hne1 : (k == "id") = false := by rw [h2]; rfl
        have hne3 : (k == "created") = false := by rw [h2]; rfl
        have hne4 : (k == "choices") = false := by rw [h2]; rfl
        have hne5 : (k == "usage") = false := by rw [h2]; rfl
        simp only [if_pos h2]
        cases a1? with
        | some _ =>
          simp [isOkE, fieldState_cons_hit _ _ _ _ _ hbeq]
        | none =>
          cases hrv : decodeString v with
          | error e =>
            have hpv : isStrVal v = false := by rw [← isOkE_decodeString, hrv]; rfl
            simp [error_bind, isOkE, fieldState_cons_hit _ _ _ _ _ hbeq, hpv]
          | ok x =>
            have hpv : isStrVal v = true := by rw [← isOkE_decodeString, hrv]; rfl
            simp only [hrv, ok_bind, ih]
            simp only [fieldState_cons_hit _ _ _ _ _ hbeq, fieldState_cons_ne _ _ _ _ _ hne1, fieldState_cons_ne _ _ _ _ _ hne3, fieldState_cons_ne _ _ _ _ _ hne4, fieldState_cons_ne _ _ _ _ _ hne5]
            simp [fieldState, hpv]
      · simp only [if_neg h2]
        by_cases h3 : k = "created"
        · have hbeq : (k == "created") = true := by simp [h3]
          have hne1 : (k == "id") = false := by rw [h3]; rfl
          have hne2 : (k == "object") = false := by rw [h3]; rfl
          have hne4 : (k == "choices") = false := by rw [h3]; rfl
          have hne5 : (k == "usage") = false := by rw [h3]; rfl
          simp only [if_pos h3]
          cases a2? with
          | some _ =>
            simp [isOkE, fieldState_cons_hit _ _ _ _ _ hbeq]
          | none =>
            cases hrv : decodeUsize v with
            | error e =>
              have hpv : isUIntVal v = false := by rw [← isOkE_decodeUsize, hrv]; rfl
              simp [error_bind, isOkE, fieldState_cons_hit _ _ _ _ _ hbeq, hpv]
            | ok x =>
              have hpv : isUIntVal v = true := by rw [← isOkE_decodeUsize, hrv]; rfl
              simp only [hrv, ok_bind, ih]
              simp only [fieldState_cons_hit _ _ _ _ _ hbeq, fieldState_cons_ne _ _ _ _ _ hne1, fieldState_cons_ne _ _ _ _ _ hne2, fieldState_cons_ne _ _ _ _ _ hne4, fieldState_cons_ne _ _ _ _ _ hne5]
              simp [fieldState, hpv]
        · simp only [if_neg h3]
          by_cases h4 : k = "choices"
          · have hbeq : (k == "choices") = true := by simp [h4]
            have hne1 : (k == "id") = false := by rw [h4]; rfl
            have hne2 : (k == "object") = false := by rw [h4]; rfl
            have hne3 : (k == "created") = false := by rw [h4]; rfl
            have hne5 : (k == "usage") = false := by rw [h4]; rfl
            simp only [if_pos h4]
            cases a3? with
            | some _ =>
              simp [isOkE, fieldState_cons_hit _ _ _ _ _ hbeq]
            | none =>
              cases hrv : decodeChoices v with
              | error e =>
                have hpv : choicesShape v = false := by rw [← isOkE_decodeChoices, hrv]; rfl
                simp [error_bind, isOkE, fieldState_cons_hit _ _ _ _ _ hbeq, hpv]
              | ok x =>
                have hpv : choicesShape v = true := by rw [← isOkE_decodeChoices, hrv]; rfl
                simp only [hrv, ok_bind, ih]
                simp only [fieldState_cons_hit _ _ _ _ _ hbeq, fieldState_cons_ne _ _ _ _ _ hne1, fieldState_cons_ne _ _ _ _ _ hne2, fieldState_cons_ne _ _ _ _ _ hne3, fieldState_cons_ne _ _ _ _ _ hne5]
                simp [fieldState, hpv]
          · simp only [if_neg h4]
            by_cases h5 : k = "usage"
            · have hbeq : (k == "usage") = true := by simp [h5]
              have hne1 : (k == "id") = false := by rw [h5]; rfl
              have hne2 : (k == "object") = false := by rw [h5]; rfl
              have hne3 : (k == "created") = false := by rw [h5]; rfl
              have hne4 : (k == "choices") = false := by rw [h5]; rfl
              simp only [if_pos h5]
              cases a4? with
              | some _ =>
                simp [isOkE, fieldState_cons_hit _ _ _ _ _ hbeq]
              | none =>
                cases hrv : decodeUsage v with
                | error e =>
                  have hpv : usageShape v = false := by rw [← isOkE_decodeUsage, hrv]; rfl
                  simp [error_bind, isOkE, fieldState_cons_hit _ _ _ _ _ hbeq, hpv]
                | ok x =>
                  have hpv : usageShape v = true := by rw [← isOkE_decodeUsage, hrv]; rfl
                  simp only [hrv, ok_bind, ih]
                  simp only [fieldState_cons_hit _ _ _ _ _ hbeq, fieldState_cons_ne _ _ _ _ _ hne1, fieldState_cons_ne _ _ _ _ _ hne2, fieldState_cons_ne _ _ _ _ _ hne3, fieldState_cons_ne _ _ _ _ _ hne4]
                  simp [fieldState, hpv]
            · simp only [if_neg h5]
              have hne1 : (k == "id") = false := by simp [h1]
              have hne2 : (k == "object") = false := by simp [h2]
              have hne3 : (k == "created") = false := by simp [h3]
              have hne4 : (k == "choices") = false := by simp [h4]
              have hne5 : (k == "usage") = false := by simp [h5]
              rw [ih]
              simp only [fieldState_cons_ne _ _ _ _ _ hne1, fieldState_cons_ne _ _ _ _ _ hne2, fieldState_cons_ne _ _ _ _ _ hne3, fieldState_cons_ne _ _ _ _ _ hne4, fieldState_cons_ne _ _ _ _ _ hne5]

theorem isOkE_decodeResponse (j : Json) : isOkE (decodeResponse j) = responseShape j := by
  cases j with
  | obj fs =>
    show isOkE (responseFields fs none none none none none) = _
    rw [responseFields_state fs none none none none none]
    rfl
  | null => rfl
  | bool b => rfl
  | num v f => rfl
  | str s => rfl
  | arr es =>
    cases es with
    | nil => rfl
    | cons a t1 =>
      cases t1 with
      | nil => rfl
      | cons b t2 =>
        cases t2 with
        | nil => rfl
        | cons c t3 =>
          cases t3 with
          | nil => rfl
          | cons d t4 =>
            cases t4 with
            | nil => rfl
            | cons e t5 =>
              cases t5 with
              | cons z tz => rfl
              | nil =>
                cases h1 : decodeString a with
                | error err1 =>
                  have hv1 : isStrVal a = false := by rw [← isOkE_decodeString, h1]; rfl
                  simp [decodeResponse, responseShape, error_bind, ok_bind, isOkE, h1, hv1]
                | ok x1 =>
                  have hv1 : isStrVal a = true := by rw [← isOkE_decodeString, h1]; rfl
                  cases h2 : decodeString b with
                  | error err2 =>
                    have hv2 : isStrVal b = false := by rw [← isOkE_decodeString, h2]; rfl
                    simp [decodeResponse, responseShape, error_bind, ok_bind, isOkE, h1, h2, hv1, hv2]
                  | ok x2 =>
                    have hv2 : isStrVal b = true := by rw [← isOkE_decodeString, h2]; rfl
                    cases h3 : decodeUsize c with
                    | error err3 =>
                      have hv3 : isUIntVal c = false := by rw [← isOkE_decodeUsize, h3]; rfl
                      simp [decodeResponse, responseShape, error_bind, ok_bind, isOkE, h1, h2, h3, hv1, hv2, hv3]
                    | ok x3 =>
                      have hv3 : isUIntVal c = true := by rw [← isOkE_decodeUsize, h3]; rfl
                      cases h4 : decodeChoices d with
                      | error err4 =>
                        have hv4 : choicesShape d = false := by rw [← isOkE_decodeChoices, h4]; rfl
                        simp [decodeResponse, responseShape, error_bind, ok_bind, isOkE, h1, h2, h3, h4, hv1, hv2, hv3, hv4]
                      | ok x4 =>
                        have hv4 : choicesShape d = true := by rw [← isOkE_decodeChoices, h4]; rfl
                        cases h5 : decodeUsage e with
                        | error err5 =>
                          have hv5 : usageShape e = false := by rw [← isOkE_decodeUsage, h5]; rfl
                          simp [decodeResponse, responseShape, error_bind, ok_bind, isOkE, h1, h2, h3, h4, h5, hv1, hv2, hv3, hv4, hv5]
                        | ok x5 =>
                          have hv5 : usageShape e = true := by rw [← isOkE_decodeUsage, h5]; rfl
                          simp [decodeResponse, responseShape, ok_bind, isOkE, h1, h2, h3, h4, h5, hv1, hv2, hv3, hv4, hv5]

/-- C4 (amended): decoding a response body fails with a decode error
exactly when the payload is not valid JSON text or does not fit one of the
derived deserializer's accepted forms: in the JSON-object form, a required
field is absent or occurs more than once, a field's value disagrees with
its declared type, or an enumerated field does not hold a token of its
closed set (as a bare string, or in `serde_json`'s single-entry map form
with null content); each struct equally decodes from a positional JSON
array of exactly its fields' values in declaration order.  `responseShape`
is precisely that condition.  In particular an otherwise well-formed
response whose `choices` array is empty decodes successfully. -/
theorem response_decode_error_characterization :
    (∀ s : String, parseJson s = none → responseFromString s = .error .parseFailed) ∧
    (∀ j : Json, isOkE (decodeResponse j) = responseShape j) ∧
    isOkE (decodeResponse (.obj [("id", .str "x"),
      ("object", .str "chat.completion"), ("created", .num 1 false),
      ("choices", .arr []), ("usage", .obj [("prompt_tokens", .num 10 false),
        ("completion_tokens", .num 1 false),
        ("total_tokens", .num 11 false)])])) = true := by
  refine ⟨?_, isOkE_decodeResponse, rfl⟩
  intro s h
  simp [responseFromString, h]

/-- Witness for C4 at a concrete non-JSON payload. -/
theorem response_decode_error_characterization_witness :
    responseFromString "garbage" = .error .parseFailed :=
  response_decode_error_characterization.1 "garbage" rfl

/-- Counterexample to C4 as stated, in both directions.  First, a payload
on which every condition the claim lists holds (each required field
present, every occurrence of it with the declared type, enum tokens inside
their closed sets — the literal reading `responseShapeSpec`) nevertheless
fails to decode, because `id` occurs twice and the derived deserializer
rejects duplicated fields.  Second, a positional-sequence payload with no
fields at all — which the claim's conditions (required fields absent)
declare a decode failure — decodes successfully through the derived
visitor's `visit_seq` path. -/
theorem response_decode_duplicate_field_counterexample :
    (responseShapeSpec (.obj [("id", .str "a"), ("id", .str "b"),
      ("object", .str "chat.completion"), ("created", .num 1 false),
      ("choices", .arr []), ("usage", .obj [("prompt_tokens", .num 10 false),
        ("completion_tokens", .num 1 false),
        ("total_tokens", .num 11 false)])]) = true ∧
    decodeResponse (.obj [("id", .str "a"), ("id", .str "b"),
      ("object", .str "chat.completion"), ("created", .num 1 false),
      ("choices", .arr []), ("usage", .obj [("prompt_tokens", .num 10 false),
        ("completion_tokens", .num 1 false),
        ("total_tokens", .num 11 false)])]) = .error (.duplicateField "id")) ∧
    (responseShapeSpec (.arr [.str "x", .str "chat.completion", .num 1 false,
      .arr [], .arr [.num 10 false, .num 1 false, .num 11 false]]) = false ∧
    decodeResponse (.arr [.str "x", .str "chat.completion", .num 1 false,
      .arr [], .arr [.num 10 false, .num 1 false, .num 11 false]]) =
      .ok ⟨"x", "chat.completion", 1, [], ⟨10, 1, 11⟩⟩) :=
  ⟨⟨rfl, rfl⟩, ⟨rfl, rfl⟩⟩

end Openai
